import Mathlib

/-!
# Verification of the OLSR protocol engine (Shiva-Shankar-Dev/OLSR)

A shallow embedding of the C sources of the OLSR daemon into Lean 4,
together with theorems settling the specification claims about it.

Conventions of the embedding:
* node ids are `Nat` (the C `uint32_t` values; all operations on them are
  equality tests, so no modular arithmetic is needed);
* times (`time_t`) are `Int`, so that differences such as
  `now - last_hello_time` behave exactly as the signed C arithmetic does;
* the C module-level tables (fixed arrays with a separate count) become
  Lean lists, mutated by explicit state passing;
* C functions returning `int` status codes return an `Int` paired with the
  updated state.

Each definition mirrors one C function and carries its source file in the
doc comment.  A few constants and one helper live in headers that are not
part of the repository snapshot; those are modelled from the spec and say
so in their doc comments.
-/

/-- `MSG_HELLO` from olsr.h. -/
def MSG_HELLO : Nat := 1
/-- `MSG_TC` from olsr.h. -/
def MSG_TC : Nat := 2

/-- `WILL_NEVER` from olsr.h. -/
def WILL_NEVER : Nat := 0
/-- `WILL_LOW` from olsr.h. -/
def WILL_LOW : Nat := 1
/-- `WILL_DEFAULT` from olsr.h. -/
def WILL_DEFAULT : Nat := 3
/-- `WILL_HIGH` from olsr.h. -/
def WILL_HIGH : Nat := 6
/-- `WILL_ALWAYS` from olsr.h. -/
def WILL_ALWAYS : Nat := 7

/-- `UNSPEC_LINK` from olsr.h. -/
def UNSPEC_LINK : Nat := 0
/-- `ASYM_LINK` from olsr.h. -/
def ASYM_LINK : Nat := 1
/-- `SYM_LINK` from olsr.h. -/
def SYM_LINK : Nat := 2
/-- `LOST_LINK` from olsr.h. -/
def LOST_LINK : Nat := 3
/-- `MPR_NEIGH` from olsr.h. -/
def MPR_NEIGH : Nat := 4

/-- `HELLO_INTERVAL` from olsr.h (seconds). -/
def HELLO_INTERVAL : Nat := 2
/-- `TC_INTERVAL` from olsr.h (seconds). -/
def TC_INTERVAL : Nat := 5
/-- `HELLO_TIMEOUT` from olsr.h (seconds). -/
def HELLO_TIMEOUT : Int := 6

/-- `MAX_RETRY_ATTEMPTS` from olsr.h. -/
def MAX_RETRY_ATTEMPTS : Nat := 3
/-- `RETRY_BASE_INTERVAL` from olsr.h (seconds). -/
def RETRY_BASE_INTERVAL : Nat := 2
/-- `MAX_RETRY_INTERVAL` from olsr.h (seconds). -/
def MAX_RETRY_INTERVAL : Nat := 16

/-- `MAX_NEIGHBORS` from olsr.h. -/
def MAX_NEIGHBORS : Nat := 40
/-- `MAX_TWO_HOP_NEIGHBORS` from olsr.h / mpr.c. -/
def MAX_TWO_HOP_NEIGHBORS : Nat := 100
/-- `SLOT_RESERVATION_TIMEOUT` from olsr.h (seconds). -/
def SLOT_RESERVATION_TIMEOUT : Int := 30
/-- `MAX_NODES` from routing.h. -/
def MAX_NODES : Nat := 50
/-- `MAX_ROUTING_ENTRIES` from routing.h. -/
def MAX_ROUTING_ENTRIES : Nat := 100
/-- `INFINITE_COST` from routing.h (`INT_MAX`). -/
def INFINITE_COST : Nat := 2147483647

/-- Modelled from the spec: `MAX_TOPOLOGY_LINKS`, the capacity of the global
topology database used by routing.c.  The header that defines it is missing
from the repository snapshot and the spec gives no numeric value; 100 is
chosen to match the other table capacities.  Every theorem below that
involves it depends only on its finiteness, not on the value. -/
def MAX_TOPOLOGY_LINKS : Nat := 100

/-- Modelled from the spec: `MAX_DUPLICATE_ENTRIES`, the capacity of the
duplicate table used by routing.c.  The defining header is missing from the
repository snapshot; 100 is chosen to match the other table capacities. -/
def MAX_DUPLICATE_ENTRIES : Nat := 100

/-- Modelled from the spec: `TC_VALIDITY_TIME` (§6 constants table, 15 s);
its defining header (tc.h) is missing from the repository snapshot. -/
def TC_VALIDITY_TIME : Nat := 15

/-- Modelled from the spec: `DUPLICATE_HOLD_TIME` (§6: at least
`TC_VALIDITY_TIME`); its defining header is missing from the snapshot. -/
def DUPLICATE_HOLD_TIME : Int := 15

/-- Modelled from the spec: `NEIGHB_HOLD_TIME` (§6: 6 s, same as
`HELLO_TIMEOUT`); its defining header is missing from the snapshot. -/
def NEIGHB_HOLD_TIME : Int := 6

/-- `struct duplicate_entry` (routing.c duplicate table). -/
structure duplicate_entry where
  originator : Nat
  seq_number : Nat
  timestamp : Int
deriving Repr, DecidableEq

/-- `struct global_topology_entry` from routing.c. -/
structure global_topology_entry where
  from_node : Nat
  to_node : Nat
  ansn : Nat
  validity_time : Int
deriving Repr, DecidableEq

/-- `struct topology_link` from routing.h (legacy `tc_topology` entries and
the working array of `build_topology_graph`). -/
structure topology_link where
  from_id : Nat
  to_id : Nat
  cost : Nat
  validity : Int
deriving Repr, DecidableEq

/-- `struct routing_table_entry` from routing.h. -/
structure routing_table_entry where
  dest_id : Nat
  next_hop_id : Nat
  metric : Nat
  hops : Nat
  timestamp : Int
deriving Repr, DecidableEq

/-- `struct neighbor_entry` from olsr.h (the revision with
`last_hello_time`, used by the timeout machinery). -/
structure neighbor_entry where
  neighbor_id : Nat
  link_status : Nat
  last_seen : Int
  last_hello_time : Int
  willingness : Nat
  is_mpr : Bool
  is_mpr_selector : Bool
deriving Repr, DecidableEq

/-- `struct two_hop_neighbor` from mpr.c. -/
structure two_hop_neighbor where
  neighbor_id : Nat
  one_hop_addr : Nat
  last_seen : Int
deriving Repr, DecidableEq

/-- An entry of the anonymous `neighbor_slots` TDMA reservation table in
rrc_olsr_interface.h. -/
structure slot_entry where
  node_id : Nat
  reserved_slot : Int
  last_updated : Int
  hop_distance : Nat
deriving Repr, DecidableEq

/-- `is_duplicate_message` from routing.c: linear scan of the duplicate
table for the (originator, sequence number) pair. -/
def is_duplicate_message (tbl : List duplicate_entry) (originator : Nat)
    (seq_number : Nat) : Bool :=
  tbl.any (fun e => e.originator == originator && e.seq_number == seq_number)

/-- `add_duplicate_entry` from routing.c: append the pair with the current
time if the table has room, else return -1. -/
def add_duplicate_entry (tbl : List duplicate_entry) (originator : Nat)
    (seq_number : Nat) (now : Int) : Int × List duplicate_entry :=
  if MAX_DUPLICATE_ENTRIES ≤ tbl.length then (-1, tbl)
  else (0, tbl ++ [⟨originator, seq_number, now⟩])

/-- The scan of `add_topology_link` (routing.c): update the first entry
matching (from, to) — overwriting ansn and validity only when the new ansn
is at least the stored one — or report that no entry matches. -/
def topo_update_first (f t : Nat) (a : Nat) (v : Int) :
    List global_topology_entry → Option (List global_topology_entry)
  | [] => none
  | e :: rest =>
    if e.from_node == f && e.to_node == t then
      some ((if e.ansn ≤ a then { e with ansn := a, validity_time := v } else e) :: rest)
    else
      match topo_update_first f t a v rest with
      | some rest2 => some (e :: rest2)
      | none => none

/-- `add_topology_link` from routing.c.  Returns the C status code together
with the updated table. -/
def add_topology_link (tbl : List global_topology_entry) (from_node to_node : Nat)
    (ansn : Nat) (validity_time : Int) : Int × List global_topology_entry :=
  match topo_update_first from_node to_node ansn validity_time tbl with
  | some tbl2 => (0, tbl2)
  | none =>
    if tbl.length < MAX_TOPOLOGY_LINKS then
      (0, tbl ++ [⟨from_node, to_node, ansn, validity_time⟩])
    else (-1, tbl)

/-- The first entry of the topology table matching a (from, to) pair —
the entry `add_topology_link`'s scan would stop at. -/
def topo_find (tbl : List global_topology_entry) (f t : Nat) :
    Option global_topology_entry :=
  tbl.find? (fun e => e.from_node == f && e.to_node == t)

/-- `get_all_topology_links` from routing.c: the entries whose validity lies
strictly in the future, converted to `topology_link` records with cost 1.
(The `max_links` bound is always `MAX_TOPOLOGY_LINKS`, which the table never
exceeds, so the truncation is dropped.) -/
def get_all_topology_links (tbl : List global_topology_entry) (now : Int) :
    List topology_link :=
  (tbl.filter (fun e => now < e.validity_time)).map
    (fun e => ⟨e.from_node, e.to_node, 1, e.validity_time⟩)

/-- `cleanup_topology_links` from routing.c: drop expired entries, return
the number removed with the compacted table. -/
def cleanup_topology_links (tbl : List global_topology_entry) (now : Int) :
    Nat × List global_topology_entry :=
  let kept := tbl.filter (fun e => now < e.validity_time)
  (tbl.length - kept.length, kept)

/-- `cleanup_duplicate_table` from routing.c: keep entries younger than
`DUPLICATE_HOLD_TIME`, return the number removed with the compacted table. -/
def cleanup_duplicate_table (tbl : List duplicate_entry) (now : Int) :
    Nat × List duplicate_entry :=
  let kept := tbl.filter (fun e => now - e.timestamp < DUPLICATE_HOLD_TIME)
  (tbl.length - kept.length, kept)

/-- `update_tc_topology` from routing.c: unconditionally append the link to
the legacy `tc_topology` array (capacity `MAX_NODES * MAX_NODES`). -/
def update_tc_topology (tbl : List topology_link) (from_id to_id : Nat)
    (validity : Int) : Int × List topology_link :=
  if MAX_NODES * MAX_NODES ≤ tbl.length then (-1, tbl)
  else (0, tbl ++ [⟨from_id, to_id, 1, validity⟩])

/-- `cleanup_tc_topology` from routing.c: drop expired legacy links. -/
def cleanup_tc_topology (tbl : List topology_link) (now : Int) :
    List topology_link :=
  tbl.filter (fun e => now < e.validity)

/-- `should_forward_message` from routing.c: the sender must be a symmetric
neighbor that has selected this node as MPR. -/
def should_forward_message (neighbors : List neighbor_entry)
    (sender_addr : Nat) : Bool :=
  neighbors.any (fun n =>
    n.neighbor_id == sender_addr && n.link_status == SYM_LINK && n.is_mpr_selector)

/-- `count_reachable_two_hop` from mpr.c: the number of two-hop table
entries reachable through `one_hop_addr`, optionally restricted to entries
not yet marked in the covered set.  The covered set is the C `covered_set`
array, carried as a list of Booleans parallel to the two-hop table. -/
def count_reachable_two_hop (one_hop_addr : Nat) (uncovered_only : Bool)
    (two_hop : List two_hop_neighbor) (covered : List Bool) : Nat :=
  (List.zip two_hop covered).countP
    (fun ec => ec.1.one_hop_addr == one_hop_addr && (!uncovered_only || !ec.2))

/-- `is_only_path` from mpr.c: `one_hop_addr` is the only path to at least
one two-hop table entry. -/
def is_only_path (one_hop_addr : Nat) (two_hop : List two_hop_neighbor) : Bool :=
  two_hop.any (fun e =>
    two_hop.countP (fun e2 => e2.neighbor_id == e.neighbor_id) == 1 &&
      e.one_hop_addr == one_hop_addr)

/-- `mark_covered_two_hop` from mpr.c: mark every two-hop entry reachable
via the selected MPR in the covered set. -/
def mark_covered_two_hop (one_hop_addr : Nat)
    (two_hop : List two_hop_neighbor) (covered : List Bool) : List Bool :=
  List.zipWith (fun e c => if e.one_hop_addr == one_hop_addr then true else c)
    two_hop covered

/-- Step 1 of `calculate_mpr_set` (mpr.c): select every symmetric neighbor
with willingness `WILL_ALWAYS`, in table order. -/
def mpr_step1 (two_hop : List two_hop_neighbor) :
    List neighbor_entry → List Nat → List Bool →
    List neighbor_entry × List Nat × List Bool
  | [], mpr, covered => ([], mpr, covered)
  | n :: rest, mpr, covered =>
    if n.link_status == SYM_LINK && n.willingness == WILL_ALWAYS then
      let out := mpr_step1 two_hop rest (mpr ++ [n.neighbor_id])
        (mark_covered_two_hop n.neighbor_id two_hop covered)
      ({ n with is_mpr := true } :: out.1, out.2)
    else
      let out := mpr_step1 two_hop rest mpr covered
      (n :: out.1, out.2)

/-- Step 2 of `calculate_mpr_set` (mpr.c): select every not-yet-selected
symmetric neighbor with willingness other than `WILL_NEVER` that is the only
path to some two-hop entry. -/
def mpr_step2 (two_hop : List two_hop_neighbor) :
    List neighbor_entry → List Nat → List Bool →
    List neighbor_entry × List Nat × List Bool
  | [], mpr, covered => ([], mpr, covered)
  | n :: rest, mpr, covered =>
    if n.link_status == SYM_LINK && !n.is_mpr && n.willingness != WILL_NEVER &&
        is_only_path n.neighbor_id two_hop then
      let out := mpr_step2 two_hop rest (mpr ++ [n.neighbor_id])
        (mark_covered_two_hop n.neighbor_id two_hop covered)
      ({ n with is_mpr := true } :: out.1, out.2)
    else
      let out := mpr_step2 two_hop rest mpr covered
      (n :: out.1, out.2)

/-- The candidate scan of Step 3 of `calculate_mpr_set` (mpr.c): walk the
neighbor table keeping the index of the best candidate so far, where better
means strictly more uncovered coverage, or equal coverage and strictly
higher willingness (the initial best willingness is the C sentinel -1). -/
def mpr_best_loop (two_hop : List two_hop_neighbor) (covered : List Bool) :
    List neighbor_entry → Nat → Option Nat × Nat × Int →
    Option Nat × Nat × Int
  | [], _, acc => acc
  | n :: rest, i, acc =>
    if n.link_status == SYM_LINK && !n.is_mpr && n.willingness != WILL_NEVER then
      let cov := count_reachable_two_hop n.neighbor_id true two_hop covered
      if acc.2.1 < cov || (cov == acc.2.1 && acc.2.2 < (n.willingness : Int)) then
        mpr_best_loop two_hop covered rest (i + 1) (some i, cov, (n.willingness : Int))
      else
        mpr_best_loop two_hop covered rest (i + 1) acc
    else
      mpr_best_loop two_hop covered rest (i + 1) acc

/-- Step 3 of `calculate_mpr_set` (mpr.c): while some two-hop table entry is
uncovered, add the best candidate (if any) and mark its entries covered.
The C `while` loop is translated with explicit fuel; every productive
iteration turns one `is_mpr` flag on, so `neighbors.length + 1` units of
fuel (as supplied by `calculate_mpr_set`) always reach the natural exit. -/
def mpr_step3 (two_hop : List two_hop_neighbor) :
    Nat → List neighbor_entry → List Nat → List Bool →
    List neighbor_entry × List Nat × List Bool
  | 0, neighbors, mpr, covered => (neighbors, mpr, covered)
  | fuel + 1, neighbors, mpr, covered =>
    if covered.all (fun c => c) then (neighbors, mpr, covered)
    else
      match (mpr_best_loop two_hop covered neighbors 0 (none, 0, -1)).1 with
      | none => (neighbors, mpr, covered)
      | some i =>
        match neighbors[i]? with
        | none => (neighbors, mpr, covered)
        | some n =>
          mpr_step3 two_hop fuel (neighbors.set i { n with is_mpr := true })
            (mpr ++ [n.neighbor_id])
            (mark_covered_two_hop n.neighbor_id two_hop covered)

/-- `calculate_mpr_set` from mpr.c, acting on the neighbor table and the
two-hop table; returns the updated neighbor table (`is_mpr` flags) together
with the `mpr_set` array. -/
def calculate_mpr_set (neighbors : List neighbor_entry)
    (two_hop : List two_hop_neighbor) : List neighbor_entry × List Nat :=
  let n0 := neighbors.map (fun n => { n with is_mpr := false })
  if two_hop.length = 0 then (n0, [])
  else
    let covered0 := List.replicate two_hop.length false
    let s1 := mpr_step1 two_hop n0 [] covered0
    let s2 := mpr_step2 two_hop s1.1 s1.2.1 s1.2.2
    let s3 := mpr_step3 two_hop (neighbors.length + 1) s2.1 s2.2.1 s2.2.2
    (s3.1, s3.2.1)

/-- The identity of a neighbor entry as far as MPR eligibility is concerned:
id, link status, willingness.  The MPR computation only ever toggles
`is_mpr` flags, so this projection of the neighbor table is invariant. -/
def nproj (n : neighbor_entry) : Nat × Nat × Nat :=
  (n.neighbor_id, n.link_status, n.willingness)

/-- `struct hello_neighbor` from packet.h (`neighbor_id`, `link_code` as
accessed in rrc_olsr_interface.h). -/
structure hello_neighbor where
  neighbor_id : Nat
  link_code : Nat
deriving Repr, DecidableEq

/-- `struct two_hop_hello_neighbor` as accessed in rrc_olsr_interface.h
(`two_hop_id`, `via_neighbor_id`, `reserved_slot`). -/
structure two_hop_hello_neighbor where
  two_hop_id : Nat
  via_neighbor_id : Nat
  reserved_slot : Int
deriving Repr, DecidableEq

/-- `struct olsr_hello` (packet.h, extended with the TDMA fields accessed
in rrc_olsr_interface.h).  The C `neighbor_count` / `two_hop_count` fields
are the list lengths. -/
structure olsr_hello where
  hello_interval : Nat
  willingness : Nat
  reserved_slot : Int
  neighbors : List hello_neighbor
  two_hop_neighbors : List two_hop_hello_neighbor
deriving Repr, DecidableEq

/-- `struct olsr_tc` from packet.h; `mpr_selectors` is the list of the
`tc_neighbor.neighbor_addr` values, `selector_count` its length. -/
structure olsr_tc where
  ansn : Nat
  mpr_selectors : List Nat
deriving Repr, DecidableEq

/-- The `void* body` / `void* message_ptr` payload of an OLSR control
message: a HELLO or a TC snapshot. -/
inductive message_payload where
  | hello : olsr_hello → message_payload
  | tc : olsr_tc → message_payload
deriving Repr, DecidableEq

/-- `struct olsr_message` from packet.h (header fields; the body is passed
alongside). -/
structure olsr_message where
  msg_type : Nat
  vtime : Nat
  originator : Nat
  ttl : Nat
  hop_count : Nat
  msg_seq_num : Nat
deriving Repr, DecidableEq

/-- `struct control_message` from olsr.h (linked-list revision).  The queue
itself is the list of these, head first. -/
structure control_message where
  msg_type : Nat
  timestamp : Int
  next_retry_time : Int
  retry_count : Nat
  destination_id : Nat
  message_ptr : message_payload
deriving Repr, DecidableEq

/-- `push_to_control_queue` from the control-queue module (linked-list
revision): append at the tail with no retry metadata.  The C failure modes
(null payload, malloc failure) cannot occur in the model, so the push
always succeeds. -/
def push_to_control_queue (q : List control_message) (msg_type : Nat)
    (p : message_payload) (now : Int) : Int × List control_message :=
  (0, q ++ [⟨msg_type, now, 0, 0, 0, p⟩])

/-- `add_message_with_retry` from the control-queue module: append at the
tail with the first retry due `RETRY_BASE_INTERVAL` seconds later. -/
def add_message_with_retry (q : List control_message) (msg_type : Nat)
    (p : message_payload) (destination_id : Nat) (now : Int) :
    Int × List control_message :=
  (0, q ++ [⟨msg_type, now, now + RETRY_BASE_INTERVAL, 0, destination_id, p⟩])

/-- `process_retry_queue` from the control-queue module: walk the queue;
a message with positive retry count whose retry time has been reached is
removed when its retry count has reached `MAX_RETRY_ATTEMPTS`, and
otherwise advanced with exponentially backed-off (capped) next retry time.
Returns the number of messages advanced (removals are not counted, as in
the C) with the updated queue. -/
def process_retry_queue (now : Int) : List control_message →
    Nat × List control_message
  | [] => (0, [])
  | m :: rest =>
    if 0 < m.retry_count ∧ m.next_retry_time ≤ now then
      if MAX_RETRY_ATTEMPTS ≤ m.retry_count then
        process_retry_queue now rest
      else
        let interval0 := RETRY_BASE_INTERVAL * 2 ^ m.retry_count
        let interval : Nat :=
          if MAX_RETRY_INTERVAL < interval0 then MAX_RETRY_INTERVAL else interval0
        let out := process_retry_queue now rest
        (out.1 + 1,
         { m with retry_count := m.retry_count + 1,
                  next_retry_time := now + interval } :: out.2)
    else
      let out := process_retry_queue now rest
      (out.1, m :: out.2)

/-- The per-message retry rule as the amended claim C8 states it: a due
message (positive retry count, retry time reached) is dropped when its
retry count is at least `MAX_RETRY_ATTEMPTS`, and otherwise advanced, with
the new retry deadline `now + min MAX_RETRY_INTERVAL
(RETRY_BASE_INTERVAL * 2 ^ retry_count)` computed from the pre-advance
retry count; any other message is untouched.  This definition follows the
amended claim's words and is compared against `process_retry_queue`. -/
def retry_step_spec (now : Int) (m : control_message) : Option control_message :=
  if 0 < m.retry_count ∧ m.next_retry_time ≤ now then
    if MAX_RETRY_ATTEMPTS ≤ m.retry_count then none
    else some { m with
      retry_count := m.retry_count + 1,
      next_retry_time :=
        now + min MAX_RETRY_INTERVAL (RETRY_BASE_INTERVAL * 2 ^ m.retry_count) }
  else some m

/-- The module-level mutable state of the daemon: the globals of
rrc_olsr_interface.h, mpr.c, routing.c and tc.c gathered into one record.
(`neighbor_count`, `two_hop_count`, … are the list lengths.) -/
structure olsr_state where
  node_id : Nat
  node_willingness : Nat
  my_reserved_slot : Int
  neighbor_table : List neighbor_entry
  two_hop_table : List two_hop_neighbor
  mpr_set : List Nat
  neighbor_slots : List slot_entry
  duplicate_table : List duplicate_entry
  global_topology : List global_topology_entry
  tc_topology : List topology_link
  routing_table : List routing_table_entry
  message_seq_num : Nat
  ansn_counter : Nat
deriving Repr, DecidableEq

/-- The C idiom `for (i …) if (match(tbl[i])) { tbl[i] = f(tbl[i]); return; }`:
update the first entry matching `p` with `f`, or report that none matches. -/
def update_first {α : Type} (p : α → Bool) (f : α → α) : List α → Option (List α)
  | [] => none
  | x :: rest =>
    if p x then some (f x :: rest)
    else
      match update_first p f rest with
      | some r => some (x :: r)
      | none => none

/-- `update_neighbor_slot_reservation` from rrc_olsr_interface.h: skip id 0
and self; update the first matching slot entry, else append when the table
has room and the slot is non-negative. -/
def update_neighbor_slot_reservation (st : olsr_state) (neighbor_id : Nat)
    (slot_number : Int) (hop_distance : Nat) (now : Int) : olsr_state :=
  if neighbor_id = 0 ∨ neighbor_id = st.node_id then st
  else
    match update_first (fun e => e.node_id == neighbor_id)
        (fun e => { e with reserved_slot := slot_number, last_updated := now,
                           hop_distance := hop_distance }) st.neighbor_slots with
    | some l => { st with neighbor_slots := l }
    | none =>
      if st.neighbor_slots.length < MAX_NEIGHBORS + MAX_TWO_HOP_NEIGHBORS ∧
          0 ≤ slot_number then
        { st with neighbor_slots := st.neighbor_slots ++
            [⟨neighbor_id, slot_number, now, hop_distance⟩] }
      else st

/-- `get_neighbor_slot_reservation` from rrc_olsr_interface.h. -/
def get_neighbor_slot_reservation (slots : List slot_entry) (node_id : Nat) : Int :=
  match slots.find? (fun e => e.node_id == node_id) with
  | some e => e.reserved_slot
  | none => -1

/-- `cleanup_expired_reservations` from rrc_olsr_interface.h: drop entries
older than `max_age`. -/
def cleanup_expired_reservations (st : olsr_state) (max_age : Int) (now : Int) :
    olsr_state :=
  { st with neighbor_slots :=
      st.neighbor_slots.filter (fun e => now - e.last_updated ≤ max_age) }

/-- `add_neighbor` from neighbor.c (the revision that initializes
`last_hello_time`): append when the table is below `MAX_NEIGHBORS`. -/
def add_neighbor (st : olsr_state) (neighbor_id : Nat) (link_code : Nat)
    (willingness : Nat) (now : Int) : Int × olsr_state :=
  if MAX_NEIGHBORS ≤ st.neighbor_table.length then (-1, st)
  else (0, { st with neighbor_table := st.neighbor_table ++
      [⟨neighbor_id, link_code, now, now, willingness, false, false⟩] })

/-- `update_neighbor` from neighbor.c: refresh the first matching entry
(link status, willingness, timestamps), else add the neighbor. -/
def update_neighbor (st : olsr_state) (neighbor_id : Nat) (link_type : Nat)
    (willingness : Nat) (now : Int) : olsr_state :=
  match update_first (fun n => n.neighbor_id == neighbor_id)
      (fun n => { n with link_status := link_type, willingness := willingness,
                         last_seen := now, last_hello_time := now }) st.neighbor_table with
  | some l => { st with neighbor_table := l }
  | none => (add_neighbor st neighbor_id link_type willingness now).2

/-- `add_two_hop_neighbor` from mpr.c: refresh `last_seen` of an existing
(two-hop, via) pair, else append when below `MAX_TWO_HOP_NEIGHBORS`. -/
def add_two_hop_neighbor (st : olsr_state) (two_hop_addr one_hop_addr : Nat)
    (now : Int) : Int × olsr_state :=
  match update_first
      (fun e => e.neighbor_id == two_hop_addr && e.one_hop_addr == one_hop_addr)
      (fun e => { e with last_seen := now }) st.two_hop_table with
  | some l => (0, { st with two_hop_table := l })
  | none =>
    if MAX_TWO_HOP_NEIGHBORS ≤ st.two_hop_table.length then (-1, st)
    else (0, { st with two_hop_table := st.two_hop_table ++
        [⟨two_hop_addr, one_hop_addr, now⟩] })

/-- Modelled from the spec: `remove_two_hop_via_neighbor`, declared in
include/mpr.h and called by `handle_link_failure`, but whose definition is
missing from the repository snapshot.  Per spec §4.3 it removes all TwoHop
entries whose via-one-hop equals the failed neighbor, returning the count
removed. -/
def remove_two_hop_via_neighbor (st : olsr_state) (one_hop_addr : Nat) :
    Nat × olsr_state :=
  let kept := st.two_hop_table.filter (fun e => !(e.one_hop_addr == one_hop_addr))
  (st.two_hop_table.length - kept.length, { st with two_hop_table := kept })

/-- `calculate_mpr_set` (mpr.c) acting on the daemon state: recompute the
MPR set and the `is_mpr` flags from the neighbor and two-hop tables. -/
def calculate_mpr_set_state (st : olsr_state) : olsr_state :=
  let r := calculate_mpr_set st.neighbor_table st.two_hop_table
  { st with neighbor_table := r.1, mpr_set := r.2 }

/-- `update_mpr_selector_status` from rrc_olsr_interface.h: set the
sender's `is_mpr_selector` flag to whether its HELLO lists this node with
link code `MPR_NEIGH` (no change when the sender is not in the table). -/
def update_mpr_selector_status (st : olsr_state) (hello : olsr_hello)
    (sender_id : Nat) : olsr_state :=
  let selected := hello.neighbors.any
    (fun r => r.neighbor_id == st.node_id && r.link_code == MPR_NEIGH)
  match update_first (fun n => n.neighbor_id == sender_id)
      (fun n => { n with is_mpr_selector := selected }) st.neighbor_table with
  | some l => { st with neighbor_table := l }
  | none => st

/-- `get_mpr_selector_count` from rrc_olsr_interface.h. -/
def get_mpr_selector_count (st : olsr_state) : Nat :=
  st.neighbor_table.countP
    (fun n => n.link_status == SYM_LINK && n.is_mpr_selector)

/-- The two-hop TDMA loop of `process_hello_message`
(rrc_olsr_interface.h): record the advertised two-hop slot reservations,
skipping this node. -/
def hello_tdma_loop (now : Int) : List two_hop_hello_neighbor → olsr_state →
    olsr_state
  | [], st => st
  | r :: rest, st =>
    if r.two_hop_id ≠ st.node_id then
      hello_tdma_loop now rest
        (update_neighbor_slot_reservation st r.two_hop_id r.reserved_slot 2 now)
    else hello_tdma_loop now rest st

/-- The two-hop derivation loop of `process_hello_message`
(rrc_olsr_interface.h): for each advertised neighbor, skip this node, skip
ids already in the one-hop table, and record (advertised, sender) when the
advertised link code is `SYM_LINK`. -/
def hello_two_hop_loop (sender_addr : Nat) (now : Int) :
    List hello_neighbor → olsr_state → olsr_state
  | [], st => st
  | r :: rest, st =>
    if r.neighbor_id = st.node_id then hello_two_hop_loop sender_addr now rest st
    else
      if !(st.neighbor_table.any (fun n => n.neighbor_id == r.neighbor_id)) &&
          r.link_code == SYM_LINK then
        hello_two_hop_loop sender_addr now rest
          (add_two_hop_neighbor st r.neighbor_id sender_addr now).2
      else hello_two_hop_loop sender_addr now rest st

/-- The opening phase of `process_hello_message` (rrc_olsr_interface.h),
through the neighbor-table update: record the sender's and the advertised
two-hop TDMA slots, upsert the sender as `SYM_LINK` or `ASYM_LINK`
according to whether its HELLO mentions this node, and refresh the
sender's `last_hello_time`. -/
def hello_neighbor_phase (st : olsr_state) (hello : olsr_hello)
    (sender_addr : Nat) (now : Int) : olsr_state :=
  let st1 := update_neighbor_slot_reservation st sender_addr hello.reserved_slot 1 now
  let st2 := hello_tdma_loop now hello.two_hop_neighbors st1
  let st3 :=
    if hello.neighbors.any (fun r => r.neighbor_id == st2.node_id) then
      update_neighbor st2 sender_addr SYM_LINK hello.willingness now
    else
      update_neighbor st2 sender_addr ASYM_LINK hello.willingness now
  match update_first (fun n => n.neighbor_id == sender_addr)
      (fun n => { n with last_hello_time := now }) st3.neighbor_table with
  | some l => { st3 with neighbor_table := l }
  | none => st3

/-- `process_hello_message` from rrc_olsr_interface.h (final revision):
neighbor phase, two-hop derivation when the sender is recorded symmetric,
MPR recomputation, MPR-selector update, TDMA expiry sweep. -/
def process_hello_message (st : olsr_state) (msg : olsr_message)
    (hello : olsr_hello) (sender_addr : Nat) (now : Int) : olsr_state :=
  if msg.msg_type ≠ MSG_HELLO then st
  else
    let st4 := hello_neighbor_phase st hello sender_addr now
    let st5 :=
      if st4.neighbor_table.any
          (fun n => n.neighbor_id == sender_addr && n.link_status == SYM_LINK) then
        hello_two_hop_loop sender_addr now hello.neighbors st4
      else st4
    let st6 := calculate_mpr_set_state st5
    let st7 := update_mpr_selector_status st6 hello sender_addr
    cleanup_expired_reservations st7 SLOT_RESERVATION_TIMEOUT now

/-- The Boolean "the pair (two-hop, via) is recorded" on a two-hop table. -/
def two_hop_pair_mem (tbl : List two_hop_neighbor) (two_hop_addr via : Nat) : Bool :=
  tbl.any (fun e => e.neighbor_id == two_hop_addr && e.one_hop_addr == via)

/-- `handle_link_failure` from rrc_olsr_interface.h: clear the failed
neighbor's TDMA reservation (slot -1) and remove all two-hop entries
reachable via it. -/
def handle_link_failure (st : olsr_state) (neighbor_id : Nat) (now : Int) :
    olsr_state :=
  let st1 := update_neighbor_slot_reservation st neighbor_id (-1) 1 now
  (remove_two_hop_via_neighbor st1 neighbor_id).2

/-- The scan of `check_neighbor_timeouts` (rrc_olsr_interface.h): walk the
neighbor table; an entry silent for more than `HELLO_TIMEOUT` has
`handle_link_failure` run and is dropped from the compacted table, all
others are kept in order.  Returns (failed count, compacted table, state
after the interleaved failure handling). -/
def neighbor_timeout_loop (now : Int) : List neighbor_entry → olsr_state →
    Nat × List neighbor_entry × olsr_state
  | [], st => (0, [], st)
  | n :: rest, st =>
    if HELLO_TIMEOUT < now - n.last_hello_time then
      let out := neighbor_timeout_loop now rest (handle_link_failure st n.neighbor_id now)
      (out.1 + 1, out.2.1, out.2.2)
    else
      let out := neighbor_timeout_loop now rest st
      (out.1, n :: out.2.1, out.2.2)

/-- `check_neighbor_timeouts` from rrc_olsr_interface.h: run the scan,
install the compacted neighbor table, and recompute the MPR set when any
neighbor failed. -/
def check_neighbor_timeouts (st : olsr_state) (now : Int) : Nat × olsr_state :=
  let out := neighbor_timeout_loop now st.neighbor_table st
  let st2 := { out.2.2 with neighbor_table := out.2.1 }
  if 0 < out.1 then (out.1, calculate_mpr_set_state st2) else (out.1, st2)

/-- `generate_hello_message` from rrc_olsr_interface.h (final revision):
snapshot interval, willingness, own slot, the neighbor table (id and link
status), and the two-hop table with each two-hop node's recorded slot.
The C guard dropping the two-hop list when its count exceeds
`MAX_TWO_HOP_NEIGHBORS` is kept. -/
def generate_hello_message (st : olsr_state) : olsr_hello :=
  { hello_interval := HELLO_INTERVAL,
    willingness := st.node_willingness,
    reserved_slot := st.my_reserved_slot,
    neighbors := st.neighbor_table.map (fun n => ⟨n.neighbor_id, n.link_status⟩),
    two_hop_neighbors :=
      if st.two_hop_table.length ≤ MAX_TWO_HOP_NEIGHBORS then
        st.two_hop_table.map (fun e =>
          ⟨e.neighbor_id, e.one_hop_addr,
           get_neighbor_slot_reservation st.neighbor_slots e.neighbor_id⟩)
      else [] }

/-- `generate_emergency_hello` from rrc_olsr_interface.h: generate a HELLO
snapshot and push it on the control queue immediately (the push cannot
fail in the model). -/
def generate_emergency_hello (st : olsr_state) (q : List control_message)
    (now : Int) : Int × List control_message :=
  push_to_control_queue q MSG_HELLO (message_payload.hello (generate_hello_message st)) now

/-- Step 1 of `build_topology_graph` (routing.c): one link `self → n` per
symmetric neighbor, validity `last_seen + 10`, bounded by the working
array's capacity. -/
def add_direct_links (cap : Nat) (node_id : Nat) (acc : List topology_link) :
    List neighbor_entry → List topology_link
  | [] => acc
  | n :: rest =>
    if cap ≤ acc.length then acc
    else if n.link_status == SYM_LINK then
      add_direct_links cap node_id (acc ++ [⟨node_id, n.neighbor_id, 1, n.last_seen + 10⟩]) rest
    else add_direct_links cap node_id acc rest

/-- Step 3 of `build_topology_graph` (routing.c): append valid global
topology links whose (from, to) pair is not already present. -/
def add_links_dedup (cap : Nat) (acc : List topology_link) :
    List topology_link → List topology_link
  | [] => acc
  | l :: rest =>
    if cap ≤ acc.length then acc
    else if acc.any (fun m => m.from_id == l.from_id && m.to_id == l.to_id) then
      add_links_dedup cap acc rest
    else add_links_dedup cap (acc ++ [l]) rest

/-- Step 4 of `build_topology_graph` (routing.c): append the legacy
`tc_topology` links that are still valid and not already present. -/
def add_legacy_links (cap : Nat) (now : Int) (acc : List topology_link) :
    List topology_link → List topology_link
  | [] => acc
  | l :: rest =>
    if cap ≤ acc.length then acc
    else if now < l.validity then
      if acc.any (fun m => m.from_id == l.from_id && m.to_id == l.to_id) then
        add_legacy_links cap now acc rest
      else add_legacy_links cap now (acc ++ [l]) rest
    else add_legacy_links cap now acc rest

/-- `build_topology_graph` from routing.c.  The function also runs
`cleanup_topology_links` and `cleanup_tc_topology`, mutating the state's
topology tables; both the built link array and the updated state are
returned. -/
def build_topology_graph (st : olsr_state) (now : Int) :
    List topology_link × olsr_state :=
  let cap := MAX_NODES * MAX_NODES
  let links1 := add_direct_links cap st.node_id [] st.neighbor_table
  let topo2 := (cleanup_topology_links st.global_topology now).2
  let links2 := add_links_dedup cap links1 (get_all_topology_links topo2 now)
  let legacy2 := cleanup_tc_topology st.tc_topology now
  let links3 := add_legacy_links cap now links2 legacy2
  (links3, { st with global_topology := topo2, tc_topology := legacy2 })

/-- The node enumeration of `dijkstra_shortest_path` (routing.c): source
first, then every link endpoint not yet listed, bounded by `MAX_NODES`. -/
def collect_nodes (cap : Nat) (acc : List Nat) : List topology_link → List Nat
  | [] => acc
  | l :: rest =>
    if cap ≤ acc.length then acc
    else
      let acc1 := if acc.contains l.from_id then acc else acc ++ [l.from_id]
      let acc2 := if acc1.contains l.to_id then acc1 else acc1 ++ [l.to_id]
      collect_nodes cap acc2 rest

/-- `find_min_distance` from routing.c: the last index, among those not in
the shortest-path set, whose distance is at most the running minimum
(which starts at `INFINITE_COST`); `none` when every index is settled. -/
def find_min_loop : List (Nat × Bool) → Nat → Nat → Option Nat → Option Nat
  | [], _, _, best => best
  | (d, s) :: rest, i, m, best =>
    if !s && d ≤ m then find_min_loop rest (i + 1) d (some i)
    else find_min_loop rest (i + 1) m best

/-- `find_min_distance` from routing.c on parallel distance / settled
lists. -/
def find_min_distance (dist : List Nat) (spt : List Bool) : Option Nat :=
  find_min_loop (dist.zip spt) 0 INFINITE_COST none

/-- The relaxation step of `dijkstra_shortest_path` (routing.c): for every
link leaving the settled node, relax the distance of its target. -/
def relax_links (nodes : List Nat) (u_id : Nat) (du : Nat)
    (spt : List Bool) : List topology_link → List Nat → List Nat →
    List Nat × List Nat
  | [], dist, parent => (dist, parent)
  | l :: rest, dist, parent =>
    if l.from_id == u_id then
      match List.findIdx? (fun x => x == l.to_id) nodes with
      | some v =>
        if !(spt.getD v true) ∧ du ≠ INFINITE_COST ∧ du + l.cost < dist.getD v 0 then
          relax_links nodes u_id du spt rest (dist.set v (du + l.cost))
            (parent.set v u_id)
        else relax_links nodes u_id du spt rest dist parent
      | none => relax_links nodes u_id du spt rest dist parent
    else relax_links nodes u_id du spt rest dist parent

/-- The main loop of `dijkstra_shortest_path` (routing.c), fuelled by the
C iteration bound `node_count - 1`. -/
def dijkstra_loop (nodes : List Nat) (links : List topology_link) :
    Nat → List Nat → List Bool → List Nat → List Nat × List Bool × List Nat
  | 0, dist, spt, parent => (dist, spt, parent)
  | k + 1, dist, spt, parent =>
    match find_min_distance dist spt with
    | none => (dist, spt, parent)
    | some u =>
      let spt2 := spt.set u true
      let rp := relax_links nodes (nodes.getD u 0) (dist.getD u 0) spt2 links dist parent
      dijkstra_loop nodes links k rp.1 spt2 rp.2

/-- The parent lookup of the next-hop walk (routing.c,
`parent[find_node_index(nodes, node_count, current)]`); an id outside the
node list (out-of-bounds access in the C) is modelled as parent 0. -/
def parent_of (nodes parent : List Nat) (x : Nat) : Nat :=
  match List.findIdx? (fun y => y == x) nodes with
  | some i => parent.getD i 0
  | none => 0

/-- The next-hop trace-back of `dijkstra_shortest_path` (routing.c): walk
parent pointers from the destination until the predecessor is the source
(next hop = the node whose parent is the source) or 0 (no next hop found).
The C `while` loop is translated with fuel; parents form a tree, so
`nodes.length` units suffice. -/
def next_hop_walk (nodes parent : List Nat) (source : Nat) :
    Nat → Nat → Nat → Nat
  | 0, current, nh =>
    if parent_of nodes parent current = source then current else nh
  | fuel + 1, current, nh =>
    if parent_of nodes parent current ≠ source ∧ parent_of nodes parent current ≠ 0 then
      next_hop_walk nodes parent source fuel (parent_of nodes parent current)
        (parent_of nodes parent current)
    else
      if parent_of nodes parent current = source then current else nh

/-- `add_routing_entry` from routing.c: update the entry for the
destination, else append when below `MAX_ROUTING_ENTRIES`. -/
def add_routing_entry (tbl : List routing_table_entry) (dest_id next_hop_id : Nat)
    (metric : Nat) (hops : Nat) (now : Int) : Int × List routing_table_entry :=
  match update_first (fun r => r.dest_id == dest_id)
      (fun r => { r with next_hop_id := next_hop_id, metric := metric,
                         hops := hops, timestamp := now }) tbl with
  | some l => (0, l)
  | none =>
    if tbl.length < MAX_ROUTING_ENTRIES then
      (0, tbl ++ [⟨dest_id, next_hop_id, metric, hops, now⟩])
    else (-1, tbl)

/-- The routing-table fill of `dijkstra_shortest_path` (routing.c): one
entry per reachable node other than the source, with metric and hop count
both the Dijkstra distance. -/
def route_fill (source : Nat) (nodes parent : List Nat) (now : Int) :
    List (Nat × Nat) → List routing_table_entry → List routing_table_entry
  | [], tbl => tbl
  | (nd, d) :: rest, tbl =>
    if nd ≠ source ∧ d ≠ INFINITE_COST then
      route_fill source nodes parent now rest
        (add_routing_entry tbl nd (next_hop_walk nodes parent source nodes.length nd nd)
          d d now).2
    else route_fill source nodes parent now rest tbl

/-- `dijkstra_shortest_path` from routing.c: enumerate nodes, run the
relaxation loop, clear the routing table and rebuild it from the results. -/
def dijkstra_shortest_path (st : olsr_state) (source : Nat)
    (links : List topology_link) (now : Int) : olsr_state :=
  let nodes := collect_nodes MAX_NODES [source] links
  match List.findIdx? (fun x => x == source) nodes with
  | none => st
  | some si =>
    let dist0 := (List.replicate nodes.length INFINITE_COST).set si 0
    let spt0 := List.replicate nodes.length false
    let parent0 := List.replicate nodes.length 0
    let out := dijkstra_loop nodes links (nodes.length - 1) dist0 spt0 parent0
    { st with routing_table :=
        route_fill source nodes out.2.2 now (nodes.zip out.1) [] }

/-- `calculate_routing_table` from routing.c: no-op when the node id is
unset; otherwise build the graph (which also expires topology entries) and
run Dijkstra, or clear the routing table when the graph is empty. -/
def calculate_routing_table (st : olsr_state) (now : Int) : olsr_state :=
  if st.node_id = 0 then st
  else
    let bg := build_topology_graph st now
    if 0 < bg.1.length then dijkstra_shortest_path bg.2 st.node_id bg.1 now
    else { bg.2 with routing_table := [] }

/-- `update_routing_table` from routing.c. -/
def update_routing_table (st : olsr_state) (now : Int) : olsr_state :=
  calculate_routing_table st now

/-- The selector loop of `process_tc_message` (tc.c, enhanced revision):
for each advertised selector, upsert the global topology link and append
the legacy link; the `topology_updated` flag is set whenever
`add_topology_link` returns 0. -/
def tc_selector_loop (originator : Nat) (ansn : Nat) (validity : Int) :
    List Nat → olsr_state → Bool → olsr_state × Bool
  | [], st, updated => (st, updated)
  | s :: rest, st, updated =>
    let r1 := add_topology_link st.global_topology originator s ansn validity
    let r2 := update_tc_topology st.tc_topology originator s validity
    tc_selector_loop originator ansn validity rest
      { st with global_topology := r1.2, tc_topology := r2.2 }
      (updated || (r1.1 == 0))

/-- `process_tc_message` from tc.c (enhanced revision, the one with
duplicate detection): drop duplicates; otherwise record the (originator,
sequence) pair, upsert a topology link per selector, recompute routing
when the topology was updated, and — when the sender is a symmetric
neighbor with `is_mpr_selector` and the TTL exceeds 1 — enqueue the TC
body for re-transmission (`forward_tc_message`; its decrement of the
wrapper's ttl / hop count mutates only the caller's copy, which is not
what is queued — the queue entry holds the TC body alone). -/
def process_tc_message (st : olsr_state) (q : List control_message)
    (msg : olsr_message) (tc : olsr_tc) (sender_addr : Nat) (now : Int) :
    olsr_state × List control_message :=
  if msg.msg_type ≠ MSG_TC then (st, q)
  else if is_duplicate_message st.duplicate_table msg.originator msg.msg_seq_num then
    (st, q)
  else
    let st1 := { st with duplicate_table :=
        (add_duplicate_entry st.duplicate_table msg.originator msg.msg_seq_num now).2 }
    let r := tc_selector_loop msg.originator tc.ansn (now + (msg.vtime : Int))
      tc.mpr_selectors st1 false
    let st2 := if r.2 then update_routing_table r.1 now else r.1
    (st2,
     if should_forward_message st2.neighbor_table sender_addr then
       if msg.ttl ≤ 1 then q
       else (push_to_control_queue q MSG_TC (message_payload.tc tc) now).2
     else q)

/-- `receive_control_message` from main.c: duplicate-check and record every
non-HELLO message before dispatching; HELLO wraps the payload with the
sender as originator, TTL 1; TC keeps originator, TTL, hop count from the
wire.  The C stores the 16-bit sequence number into the 8-bit
`msg_seq_num` header field, hence the `% 256`. -/
def receive_control_message (st : olsr_state) (q : List control_message)
    (p : message_payload) (msg_type : Nat) (sender_id originator_id : Nat)
    (seq_num : Nat) (ttl hop_count : Nat) (now : Int) :
    olsr_state × List control_message :=
  if msg_type ≠ MSG_HELLO ∧ is_duplicate_message st.duplicate_table originator_id seq_num then
    (st, q)
  else
    let st0 :=
      if msg_type ≠ MSG_HELLO then
        { st with duplicate_table :=
            (add_duplicate_entry st.duplicate_table originator_id seq_num now).2 }
      else st
    if msg_type = MSG_HELLO then
      match p with
      | message_payload.hello h =>
        (process_hello_message st0 ⟨MSG_HELLO, 6, sender_id, 1, 0, seq_num % 256⟩
          h sender_id now, q)
      | message_payload.tc _ => (st0, q)
    else if msg_type = MSG_TC then
      match p with
      | message_payload.tc tc =>
        process_tc_message st0 q
          ⟨MSG_TC, TC_VALIDITY_TIME, originator_id, ttl, hop_count, seq_num % 256⟩
          tc sender_id now
      | message_payload.hello _ => (st0, q)
    else (st0, q)

/-- The body of the 1-second-guarded timeout block of `init_olsr`
(main.c): run the neighbor timeout scan; on any failure set the
topology-changed flag and enqueue an emergency HELLO.  Returns the new
state, queue, flag, and the scan's count. -/
def init_olsr_timeout_block (st : olsr_state) (q : List control_message)
    (topology_changed : Bool) (now : Int) :
    olsr_state × List control_message × Bool × Nat :=
  let out := check_neighbor_timeouts st now
  if 0 < out.1 then
    (out.2, (generate_emergency_hello out.2 q now).2, true, out.1)
  else (out.2, q, topology_changed, out.1)

/-- The end-of-iteration routing block of `init_olsr` (main.c): when the
topology-changed flag is set, recompute the routing table and clear the
flag. -/
def init_olsr_routing_block (st : olsr_state) (topology_changed : Bool)
    (now : Int) : olsr_state × Bool :=
  if topology_changed then (update_routing_table st now, false)
  else (st, topology_changed)

/-! ## Theorems -/

/-- If no entry matches, the update scan reports `none`. -/
theorem topo_update_first_none {tbl : List global_topology_entry} {f t : Nat}
    (a : Nat) (v : Int) (h : topo_find tbl f t = none) :
    topo_update_first f t a v tbl = none := by
  induction tbl with
  | nil => rfl
  | cons e rest ih =>
    by_cases hb : (e.from_node == f && e.to_node == t) = true
    · rw [topo_find, List.find?_cons_of_pos (p := fun e : global_topology_entry => e.from_node == f && e.to_node == t) _ hb] at h
      exact absurd h (by simp)
    · rw [topo_find, List.find?_cons_of_neg (p := fun e : global_topology_entry => e.from_node == f && e.to_node == t) _ hb] at h
      unfold topo_update_first
      rw [if_neg hb, ih h]

/-- A stale ansn (strictly below the stored one) leaves the scanned table
unchanged. -/
theorem topo_update_first_stale {tbl : List global_topology_entry}
    {f t : Nat} {e : global_topology_entry} (a : Nat) (v : Int)
    (hfind : topo_find tbl f t = some e) (hstale : a < e.ansn) :
    topo_update_first f t a v tbl = some tbl := by
  induction tbl with
  | nil => exact absurd hfind (by simp [topo_find])
  | cons x rest ih =>
    by_cases hb : (x.from_node == f && x.to_node == t) = true
    · rw [topo_find, List.find?_cons_of_pos (p := fun e : global_topology_entry => e.from_node == f && e.to_node == t) _ hb] at hfind
      obtain rfl : x = e := by simpa using hfind
      unfold topo_update_first
      rw [if_pos hb, if_neg (by omega)]
    · rw [topo_find, List.find?_cons_of_neg (p := fun e : global_topology_entry => e.from_node == f && e.to_node == t) _ hb] at hfind
      unfold topo_update_first
      rw [if_neg hb, ih hfind]

/-- With ansn at least the stored one, the scan overwrites the first
matching entry with the new ansn and validity. -/
theorem topo_update_first_overwrite {tbl : List global_topology_entry}
    {f t : Nat} {e : global_topology_entry} (a : Nat) (v : Int)
    (hfind : topo_find tbl f t = some e) (hge : e.ansn ≤ a) :
    ∃ tbl2, topo_update_first f t a v tbl = some tbl2 ∧
      topo_find tbl2 f t = some ⟨f, t, a, v⟩ ∧
      tbl2.length = tbl.length := by
  induction tbl with
  | nil => exact absurd hfind (by simp [topo_find])
  | cons x rest ih =>
    by_cases hb : (x.from_node == f && x.to_node == t) = true
    · rw [topo_find, List.find?_cons_of_pos (p := fun e : global_topology_entry => e.from_node == f && e.to_node == t) _ hb] at hfind
      have he : x = e := by simpa using hfind
      have hge2 : x.ansn ≤ a := he ▸ hge
      obtain ⟨hf, ht⟩ : x.from_node = f ∧ x.to_node = t := by simpa using hb
      refine ⟨{ x with ansn := a, validity_time := v } :: rest, ?_, ?_, by simp⟩
      · unfold topo_update_first
        rw [if_pos hb, if_pos hge2]
      · obtain ⟨xf, xt, xa, xv⟩ := x
        simp only at hf ht
        rw [topo_find]
        rw [List.find?_cons_of_pos (p := fun e : global_topology_entry => e.from_node == f && e.to_node == t) _ (by simp [hf, ht])]
        simp [hf, ht]
    · rw [topo_find, List.find?_cons_of_neg (p := fun e : global_topology_entry => e.from_node == f && e.to_node == t) _ hb] at hfind
      obtain ⟨tbl2, h1, h2, h3⟩ := ih hfind
      refine ⟨x :: tbl2, ?_, ?_, by simp [h3]⟩
      · unfold topo_update_first
        rw [if_neg hb, h1]
      · rw [topo_find, List.find?_cons_of_neg (p := fun e : global_topology_entry => e.from_node == f && e.to_node == t) _ hb]
        exact h2

/-- C2: `add_topology_link` on an existing (from, to) pair ignores a call
whose ansn is strictly below the stored one (whole table unchanged),
overwrites the stored ansn and validity when the new ansn is at least the
stored one, and inserts an absent pair exactly when the table is below
`MAX_TOPOLOGY_LINKS` entries.  (routing.c, `add_topology_link`.) -/
theorem add_topology_link_update_semantics
    (tbl : List global_topology_entry) (f t a : Nat) (v : Int) :
    (∀ e, topo_find tbl f t = some e → a < e.ansn →
      (add_topology_link tbl f t a v).2 = tbl) ∧
    (∀ e, topo_find tbl f t = some e → e.ansn ≤ a →
      topo_find (add_topology_link tbl f t a v).2 f t = some ⟨f, t, a, v⟩ ∧
      (add_topology_link tbl f t a v).2.length = tbl.length) ∧
    (topo_find tbl f t = none → tbl.length < MAX_TOPOLOGY_LINKS →
      (add_topology_link tbl f t a v).2 = tbl ++ [⟨f, t, a, v⟩]) ∧
    (topo_find tbl f t = none → MAX_TOPOLOGY_LINKS ≤ tbl.length →
      (add_topology_link tbl f t a v).2 = tbl) := by
  refine ⟨?_, ?_, ?_, ?_⟩
  · intro e hfind hstale
    unfold add_topology_link
    rw [topo_update_first_stale a v hfind hstale]
  · intro e hfind hge
    obtain ⟨tbl2, h1, h2, h3⟩ := topo_update_first_overwrite a v hfind hge
    unfold add_topology_link
    rw [h1]
    exact ⟨h2, h3⟩
  · intro hfind hlt
    unfold add_topology_link
    rw [topo_update_first_none a v hfind]
    simp [hlt]
  · intro hfind hfull
    unfold add_topology_link
    rw [topo_update_first_none a v hfind]
    simp [Nat.not_lt.mpr hfull]

/-- Witness for C2: concrete instances of all three behaviours, obtained by
applying `add_topology_link_update_semantics`. -/
theorem add_topology_link_update_semantics_witness :
    (add_topology_link [⟨1, 2, 5, 10⟩] 1 2 4 20).2 = [⟨1, 2, 5, 10⟩] ∧
    topo_find (add_topology_link [⟨1, 2, 5, 10⟩] 1 2 7 20).2 1 2 =
      some ⟨1, 2, 7, 20⟩ ∧
    (add_topology_link [⟨1, 2, 5, 10⟩] 3 4 9 20).2 =
      [⟨1, 2, 5, 10⟩, ⟨3, 4, 9, 20⟩] :=
  ⟨(add_topology_link_update_semantics [⟨1, 2, 5, 10⟩] 1 2 4 20).1
      ⟨1, 2, 5, 10⟩ (by decide) (by decide),
   ((add_topology_link_update_semantics [⟨1, 2, 5, 10⟩] 1 2 7 20).2.1
      ⟨1, 2, 5, 10⟩ (by decide) (by decide)).1,
   (add_topology_link_update_semantics [⟨1, 2, 5, 10⟩] 3 4 9 20).2.2.1
      (by decide) (by decide)⟩

/-- C10: `add_topology_link` returns 0 both on a genuine update and on a
stale-ansn no-op (leaving the table unchanged in the stale case), and
returns -1 exactly when the pair is absent and the table already holds
`MAX_TOPOLOGY_LINKS` entries.  (routing.c, `add_topology_link`.) -/
theorem add_topology_link_return_codes
    (tbl : List global_topology_entry) (f t a : Nat) (v : Int) :
    ((add_topology_link tbl f t a v).1 = -1 ↔
      topo_find tbl f t = none ∧ MAX_TOPOLOGY_LINKS ≤ tbl.length) ∧
    (∀ e, topo_find tbl f t = some e →
      (add_topology_link tbl f t a v).1 = 0 ∧
      (a < e.ansn → (add_topology_link tbl f t a v).2 = tbl)) := by
  constructor
  · constructor
    · intro hret
      unfold add_topology_link at hret
      cases hu : topo_update_first f t a v tbl with
      | some tbl2 => rw [hu] at hret; simp at hret
      | none =>
        rw [hu] at hret
        by_cases hlen : tbl.length < MAX_TOPOLOGY_LINKS
        · rw [if_pos hlen] at hret; simp at hret
        · refine ⟨?_, Nat.not_lt.mp hlen⟩
          cases hf : topo_find tbl f t with
          | none => rfl
          | some e =>
            rcases Nat.lt_or_ge a e.ansn with hlt | hge
            · rw [topo_update_first_stale a v hf hlt] at hu; simp at hu
            · obtain ⟨tbl2, h1, _, _⟩ := topo_update_first_overwrite a v hf hge
              rw [h1] at hu; simp at hu
    · rintro ⟨hfind, hfull⟩
      unfold add_topology_link
      rw [topo_update_first_none a v hfind]
      simp [Nat.not_lt.mpr hfull]
  · intro e hfind
    constructor
    · unfold add_topology_link
      rcases Nat.lt_or_ge a e.ansn with hlt | hge
      · rw [topo_update_first_stale a v hfind hlt]
      · obtain ⟨tbl2, h1, _, _⟩ := topo_update_first_overwrite a v hfind hge
        rw [h1]
    · intro hstale
      unfold add_topology_link
      rw [topo_update_first_stale a v hfind hstale]

/-- Witness for C10: a stale call returns 0 with the table unchanged, and
a fresh pair offered to a full table returns -1; both by applying
`add_topology_link_return_codes`. -/
theorem add_topology_link_return_codes_witness :
    ((add_topology_link [⟨1, 2, 5, 10⟩] 1 2 4 20).1 = 0 ∧
      (add_topology_link [⟨1, 2, 5, 10⟩] 1 2 4 20).2 = [⟨1, 2, 5, 10⟩]) ∧
    (add_topology_link (List.replicate 100 ⟨9, 9, 1, 50⟩) 1 2 4 20).1 = -1 :=
  ⟨⟨((add_topology_link_return_codes [⟨1, 2, 5, 10⟩] 1 2 4 20).2
        ⟨1, 2, 5, 10⟩ (by decide)).1,
    ((add_topology_link_return_codes [⟨1, 2, 5, 10⟩] 1 2 4 20).2
        ⟨1, 2, 5, 10⟩ (by decide)).2 (by decide)⟩,
   (add_topology_link_return_codes
      (List.replicate 100 ⟨9, 9, 1, 50⟩) 1 2 4 20).1.mpr
     ⟨by decide, by decide⟩⟩

/-- Step 1 only toggles `is_mpr` flags: any projection of the neighbor
table that ignores `is_mpr` is unchanged. -/
theorem mpr_step1_map {α : Type} (g : neighbor_entry → α)
    (hgm : ∀ (n : neighbor_entry) (b : Bool), g { n with is_mpr := b } = g n)
    (two_hop : List two_hop_neighbor) :
    ∀ (l : List neighbor_entry) (mpr : List Nat) (covered : List Bool),
    ((mpr_step1 two_hop l mpr covered).1).map g = l.map g := by
  intro l
  induction l with
  | nil => intro mpr covered; rfl
  | cons n rest ih =>
    intro mpr covered
    cases hg : (n.link_status == SYM_LINK && n.willingness == WILL_ALWAYS) with
    | true =>
      simp only [mpr_step1, hg, if_true, List.map_cons, ih]
      rw [hgm]
    | false =>
      simp only [mpr_step1, hg, Bool.false_eq_true, if_false, List.map_cons, ih]

/-- Step 1 only toggles `is_mpr` flags (eligibility projection). -/
theorem mpr_step1_proj (two_hop : List two_hop_neighbor)
    (l : List neighbor_entry) (mpr : List Nat) (covered : List Bool) :
    ((mpr_step1 two_hop l mpr covered).1).map nproj = l.map nproj :=
  mpr_step1_map nproj (fun _ _ => rfl) two_hop l mpr covered

/-- Every id Step 1 appends to the MPR set belongs to a symmetric neighbor
with willingness `WILL_ALWAYS`. -/
theorem mpr_step1_mem (two_hop : List two_hop_neighbor) :
    ∀ (l : List neighbor_entry) (mpr : List Nat) (covered : List Bool) (x : Nat),
    x ∈ (mpr_step1 two_hop l mpr covered).2.1 →
    x ∈ mpr ∨ ∃ n ∈ l, n.neighbor_id = x ∧ n.link_status = SYM_LINK ∧
      n.willingness = WILL_ALWAYS := by
  intro l
  induction l with
  | nil => intro mpr covered x hx; exact Or.inl hx
  | cons n rest ih =>
    intro mpr covered x hx
    cases hg : (n.link_status == SYM_LINK && n.willingness == WILL_ALWAYS) with
    | true =>
      simp only [mpr_step1, hg, if_true] at hx
      obtain ⟨hs, hw⟩ : n.link_status = SYM_LINK ∧ n.willingness = WILL_ALWAYS := by
        simpa using hg
      rcases ih _ _ x hx with hmem | ⟨m, hm, hp⟩
      · rcases List.mem_append.mp hmem with hmem2 | hid
        · exact Or.inl hmem2
        · refine Or.inr ⟨n, List.mem_cons_self _ _, ?_, hs, hw⟩
          symm
          simpa using hid
      · exact Or.inr ⟨m, List.mem_cons_of_mem _ hm, hp⟩
    | false =>
      simp only [mpr_step1, hg, Bool.false_eq_true, if_false] at hx
      rcases ih _ _ x hx with hmem | ⟨m, hm, hp⟩
      · exact Or.inl hmem
      · exact Or.inr ⟨m, List.mem_cons_of_mem _ hm, hp⟩

/-- Step 2 only toggles `is_mpr` flags: any projection that ignores
`is_mpr` is unchanged. -/
theorem mpr_step2_map {α : Type} (g : neighbor_entry → α)
    (hgm : ∀ (n : neighbor_entry) (b : Bool), g { n with is_mpr := b } = g n)
    (two_hop : List two_hop_neighbor) :
    ∀ (l : List neighbor_entry) (mpr : List Nat) (covered : List Bool),
    ((mpr_step2 two_hop l mpr covered).1).map g = l.map g := by
  intro l
  induction l with
  | nil => intro mpr covered; rfl
  | cons n rest ih =>
    intro mpr covered
    cases hg : (n.link_status == SYM_LINK && !n.is_mpr &&
        n.willingness != WILL_NEVER && is_only_path n.neighbor_id two_hop) with
    | true =>
      simp only [mpr_step2, hg, if_true, List.map_cons, ih]
      rw [hgm]
    | false =>
      simp only [mpr_step2, hg, Bool.false_eq_true, if_false, List.map_cons, ih]

/-- Step 2 only toggles `is_mpr` flags (eligibility projection). -/
theorem mpr_step2_proj (two_hop : List two_hop_neighbor)
    (l : List neighbor_entry) (mpr : List Nat) (covered : List Bool) :
    ((mpr_step2 two_hop l mpr covered).1).map nproj = l.map nproj :=
  mpr_step2_map nproj (fun _ _ => rfl) two_hop l mpr covered

/-- Every id Step 2 appends to the MPR set belongs to a symmetric neighbor
whose willingness is not `WILL_NEVER`. -/
theorem mpr_step2_mem (two_hop : List two_hop_neighbor) :
    ∀ (l : List neighbor_entry) (mpr : List Nat) (covered : List Bool) (x : Nat),
    x ∈ (mpr_step2 two_hop l mpr covered).2.1 →
    x ∈ mpr ∨ ∃ n ∈ l, n.neighbor_id = x ∧ n.link_status = SYM_LINK ∧
      n.willingness ≠ WILL_NEVER := by
  intro l
  induction l with
  | nil => intro mpr covered x hx; exact Or.inl hx
  | cons n rest ih =>
    intro mpr covered x hx
    cases hg : (n.link_status == SYM_LINK && !n.is_mpr &&
        n.willingness != WILL_NEVER && is_only_path n.neighbor_id two_hop) with
    | true =>
      simp only [mpr_step2, hg, if_true] at hx
      have hg2 := hg
      simp only [Bool.and_eq_true, beq_iff_eq, bne_iff_ne, Bool.not_eq_true'] at hg2
      obtain ⟨⟨⟨hs, hm0⟩, hw⟩, hop⟩ := hg2
      rcases ih _ _ x hx with hmem | ⟨m, hm, hp⟩
      · rcases List.mem_append.mp hmem with hmem2 | hid
        · exact Or.inl hmem2
        · refine Or.inr ⟨n, List.mem_cons_self _ _, ?_, hs, hw⟩
          symm
          simpa using hid
      · exact Or.inr ⟨m, List.mem_cons_of_mem _ hm, hp⟩
    | false =>
      simp only [mpr_step2, hg, Bool.false_eq_true, if_false] at hx
      rcases ih _ _ x hx with hmem | ⟨m, hm, hp⟩
      · exact Or.inl hmem
      · exact Or.inr ⟨m, List.mem_cons_of_mem _ hm, hp⟩

/-- If the Step-3 candidate scan settles on an index that was not already in
its accumulator, the neighbor at that index (counting from the scan's base
index) is symmetric, unselected, and willing. -/
theorem mpr_best_loop_some (two_hop : List two_hop_neighbor) (covered : List Bool) :
    ∀ (l : List neighbor_entry) (j : Nat) (acc : Option Nat × Nat × Int) (i : Nat),
    (mpr_best_loop two_hop covered l j acc).1 = some i →
    acc.1 = some i ∨ ∃ k, ∃ n, l[k]? = some n ∧ i = j + k ∧
      n.link_status = SYM_LINK ∧ n.is_mpr = false ∧ n.willingness ≠ WILL_NEVER := by
  intro l
  induction l with
  | nil => intro j acc i h; exact Or.inl h
  | cons n rest ih =>
    intro j acc i h
    cases hg : (n.link_status == SYM_LINK && !n.is_mpr && n.willingness != WILL_NEVER) with
    | true =>
      have hg2 := hg
      simp only [Bool.and_eq_true, beq_iff_eq, bne_iff_ne, Bool.not_eq_true'] at hg2
      obtain ⟨⟨hs, hm0⟩, hw⟩ := hg2
      simp only [mpr_best_loop, hg, if_true] at h
      by_cases hsel : (acc.2.1 < count_reachable_two_hop n.neighbor_id true two_hop covered ||
          (count_reachable_two_hop n.neighbor_id true two_hop covered == acc.2.1 &&
            acc.2.2 < (n.willingness : Int))) = true
      · rw [if_pos hsel] at h
        rcases ih _ _ i h with hacc | ⟨k, m, hk, hik, hp⟩
        · refine Or.inr ⟨0, n, by simp, ?_, hs, hm0, hw⟩
          have : j = i := by simpa using hacc
          omega
        · exact Or.inr ⟨k + 1, m, by simpa using hk, by omega, hp⟩
      · rw [if_neg hsel] at h
        rcases ih _ _ i h with hacc | ⟨k, m, hk, hik, hp⟩
        · exact Or.inl hacc
        · exact Or.inr ⟨k + 1, m, by simpa using hk, by omega, hp⟩
    | false =>
      simp only [mpr_best_loop, hg, Bool.false_eq_true, if_false] at h
      rcases ih _ _ i h with hacc | ⟨k, m, hk, hik, hp⟩
      · exact Or.inl hacc
      · exact Or.inr ⟨k + 1, m, by simpa using hk, by omega, hp⟩

/-- Setting an `is_mpr` flag does not change any projection of the
neighbor table that ignores `is_mpr`. -/
theorem map_set_is_mpr {α : Type} (g : neighbor_entry → α)
    (hgm : ∀ (n : neighbor_entry) (b : Bool), g { n with is_mpr := b } = g n) :
    ∀ (l : List neighbor_entry) (i : Nat) (n : neighbor_entry),
    l[i]? = some n →
    (l.set i { n with is_mpr := true }).map g = l.map g := by
  intro l
  induction l with
  | nil => intro i n h; simp at h
  | cons m rest ih =>
    intro i n h
    cases i with
    | zero =>
      obtain rfl : m = n := by simpa using h
      simp only [List.set_cons_zero, List.map_cons]
      rw [hgm]
    | succ k =>
      simp only [List.getElem?_cons_succ] at h
      simp only [List.set_cons_succ, List.map_cons, ih _ _ h]

/-- Setting an `is_mpr` flag does not change the eligibility projection. -/
theorem map_nproj_set (l : List neighbor_entry) (i : Nat) (n : neighbor_entry)
    (h : l[i]? = some n) :
    (l.set i { n with is_mpr := true }).map nproj = l.map nproj :=
  map_set_is_mpr nproj (fun _ _ => rfl) l i n h

/-- Step 3 only toggles `is_mpr` flags: any projection that ignores
`is_mpr` is unchanged. -/
theorem mpr_step3_map {α : Type} (g : neighbor_entry → α)
    (hgm : ∀ (n : neighbor_entry) (b : Bool), g { n with is_mpr := b } = g n)
    (two_hop : List two_hop_neighbor) :
    ∀ (fuel : Nat) (l : List neighbor_entry) (mpr : List Nat) (covered : List Bool),
    ((mpr_step3 two_hop fuel l mpr covered).1).map g = l.map g := by
  intro fuel
  induction fuel with
  | zero => intro l mpr covered; rfl
  | succ fuel ih =>
    intro l mpr covered
    unfold mpr_step3
    by_cases hall : covered.all (fun c => c) = true
    · rw [if_pos hall]
    · rw [if_neg hall]
      split
      next => rfl
      next i heq1 =>
        split
        next => rfl
        next n heq2 =>
          rw [ih]
          exact map_set_is_mpr g hgm l i n heq2

/-- Step 3 only toggles `is_mpr` flags (eligibility projection). -/
theorem mpr_step3_proj (two_hop : List two_hop_neighbor)
    (fuel : Nat) (l : List neighbor_entry) (mpr : List Nat) (covered : List Bool) :
    ((mpr_step3 two_hop fuel l mpr covered).1).map nproj = l.map nproj :=
  mpr_step3_map nproj (fun _ _ => rfl) two_hop fuel l mpr covered

/-- Every id Step 3 appends to the MPR set belongs to a symmetric neighbor
whose willingness is not `WILL_NEVER`. -/
theorem mpr_step3_mem (two_hop : List two_hop_neighbor) :
    ∀ (fuel : Nat) (l : List neighbor_entry) (mpr : List Nat) (covered : List Bool) (x : Nat),
    x ∈ (mpr_step3 two_hop fuel l mpr covered).2.1 →
    x ∈ mpr ∨ ∃ n ∈ l, n.neighbor_id = x ∧ n.link_status = SYM_LINK ∧
      n.willingness ≠ WILL_NEVER := by
  intro fuel
  induction fuel with
  | zero => intro l mpr covered x hx; exact Or.inl hx
  | succ fuel ih =>
    intro l mpr covered x hx
    unfold mpr_step3 at hx
    by_cases hall : covered.all (fun c => c) = true
    · rw [if_pos hall] at hx; exact Or.inl hx
    · rw [if_neg hall] at hx
      split at hx
      next => exact Or.inl hx
      next i heq1 =>
        split at hx
        next => exact Or.inl hx
        next n heq2 =>
          have hn : n.link_status = SYM_LINK ∧ n.is_mpr = false ∧
              n.willingness ≠ WILL_NEVER := by
            rcases mpr_best_loop_some two_hop covered l 0 (none, 0, -1) i heq1 with
              habs | ⟨k, m, hk, hik, hp⟩
            · simp at habs
            · obtain rfl : k = i := by omega
              rw [heq2] at hk
              obtain rfl : n = m := by simpa using hk
              exact hp
          rcases ih _ _ _ x hx with hmem | ⟨m, hm, hp⟩
          · rcases List.mem_append.mp hmem with hmem2 | hid
            · exact Or.inl hmem2
            · refine Or.inr ⟨n, List.getElem?_mem heq2, ?_, hn.1, hn.2.2⟩
              symm
              simpa using hid
          · rcases List.mem_or_eq_of_mem_set hm with hml | rfl
            · exact Or.inr ⟨m, hml, hp⟩
            · refine Or.inr ⟨n, List.getElem?_mem heq2, ?_, hn.1, hn.2.2⟩
              exact hp.1

/-- Existence of an eligible neighbor transfers along equality of
eligibility projections. -/
theorem exists_eligible_of_proj_eq {L1 L2 : List neighbor_entry} {x : Nat}
    (h : L1.map nproj = L2.map nproj)
    (hex : ∃ n ∈ L1, n.neighbor_id = x ∧ n.link_status = SYM_LINK ∧
      n.willingness ≠ WILL_NEVER) :
    ∃ n ∈ L2, n.neighbor_id = x ∧ n.link_status = SYM_LINK ∧
      n.willingness ≠ WILL_NEVER := by
  obtain ⟨n, hn, h1, h2, h3⟩ := hex
  have hmem : nproj n ∈ L2.map nproj := by
    rw [← h]
    exact List.mem_map_of_mem _ hn
  obtain ⟨p, hp, hpe⟩ := List.mem_map.mp hmem
  have e1 : p.neighbor_id = n.neighbor_id := congrArg Prod.fst hpe
  have e2 : p.link_status = n.link_status := congrArg (fun q => q.2.1) hpe
  have e3 : p.willingness = n.willingness := congrArg (fun q => q.2.2) hpe
  exact ⟨p, hp, by rw [e1, h1], by rw [e2, h2], by rw [e3]; exact h3⟩

/-- C4: after every run of `calculate_mpr_set`, every member of the
resulting MPR set is a neighbor whose link status is `SYM_LINK` and whose
willingness is not `WILL_NEVER`.  (mpr.c, `calculate_mpr_set`: all three
selection sites guard on a symmetric link, and on willingness
`WILL_ALWAYS` respectively `!= WILL_NEVER`.) -/
theorem calculate_mpr_set_eligibility
    (neighbors : List neighbor_entry) (two_hop : List two_hop_neighbor)
    (x : Nat) (hx : x ∈ (calculate_mpr_set neighbors two_hop).2) :
    ∃ n ∈ (calculate_mpr_set neighbors two_hop).1, n.neighbor_id = x ∧
      n.link_status = SYM_LINK ∧ n.willingness ≠ WILL_NEVER := by
  unfold calculate_mpr_set at hx ⊢
  by_cases h2 : two_hop.length = 0
  · rw [if_pos h2] at hx
    simp at hx
  · rw [if_neg h2] at hx ⊢
    simp only at hx ⊢
    rcases mpr_step3_mem two_hop _ _ _ _ x hx with hmem | hex3
    · rcases mpr_step2_mem two_hop _ _ _ x hmem with hmem1 | hex2
      · rcases mpr_step1_mem two_hop _ _ _ x hmem1 with habs | hex1
        · simp at habs
        · obtain ⟨n, hn, ha, hb, hc⟩ := hex1
          refine exists_eligible_of_proj_eq ?_ ⟨n, hn, ha, hb, by rw [hc]; decide⟩
          rw [mpr_step3_proj, mpr_step2_proj, mpr_step1_proj]
      · refine exists_eligible_of_proj_eq ?_ hex2
        rw [mpr_step3_proj, mpr_step2_proj]
    · refine exists_eligible_of_proj_eq ?_ hex3
      rw [mpr_step3_proj]

/-- Witness for C4: in the chain topology of the repository's own Test 2
(one symmetric neighbor 0x0A000002 reaching two-hop node 0x0A000003),
0x0A000002 is selected, and `calculate_mpr_set_eligibility` yields its
eligibility. -/
theorem calculate_mpr_set_eligibility_witness :
    0x0A000002 ∈ (calculate_mpr_set
        [⟨0x0A000002, SYM_LINK, 0, 0, WILL_DEFAULT, false, false⟩]
        [⟨0x0A000003, 0x0A000002, 0⟩]).2 ∧
    ∃ n ∈ (calculate_mpr_set
        [⟨0x0A000002, SYM_LINK, 0, 0, WILL_DEFAULT, false, false⟩]
        [⟨0x0A000003, 0x0A000002, 0⟩]).1, n.neighbor_id = 0x0A000002 ∧
      n.link_status = SYM_LINK ∧ n.willingness ≠ WILL_NEVER :=
  ⟨by decide,
   calculate_mpr_set_eligibility
     [⟨0x0A000002, SYM_LINK, 0, 0, WILL_DEFAULT, false, false⟩]
     [⟨0x0A000003, 0x0A000002, 0⟩] 0x0A000002 (by decide)⟩

/-- C3 fails on the code: in the repository's own Test 3 scenario
(mpr_test.c, `test_multiple_paths_willingness` — neighbors 0x0A000002 with
`WILL_LOW` and 0x0A000003 with `WILL_HIGH`, both symmetric, both reaching
the single two-hop node 0x0A000004), the greedy loop first selects
0x0A000003, after which every two-hop id is covered and no candidate can
reduce the uncovered-id set — yet the loop also selects 0x0A000002,
because coverage is tracked per (two-hop, via) table entry rather than per
two-hop id.  The test itself expects an MPR count of 1. -/
theorem calculate_mpr_set_selects_useless_neighbor :
    (calculate_mpr_set
        [⟨0x0A000002, SYM_LINK, 0, 0, WILL_LOW, false, false⟩,
         ⟨0x0A000003, SYM_LINK, 0, 0, WILL_HIGH, false, false⟩]
        [⟨0x0A000004, 0x0A000002, 0⟩, ⟨0x0A000004, 0x0A000003, 0⟩]).2 =
      [0x0A000003, 0x0A000002] := by decide

/-- C8 fails on the code at the boundary: a due message whose retry count
is exactly `MAX_RETRY_ATTEMPTS` (= 3, which does not exceed 3) is removed
from the queue by the retry pass instead of being advanced as the claim
requires. -/
theorem process_retry_queue_drops_at_exactly_max :
    (process_retry_queue 5 [⟨MSG_TC, 0, 5, 3, 7, message_payload.tc ⟨1, []⟩⟩]).2
      = [] ∧ MAX_RETRY_ATTEMPTS = 3 := by decide

/-- C8 as amended: a retry pass maps each queue entry through
`retry_step_spec` — due messages with retry count strictly below
`MAX_RETRY_ATTEMPTS` are advanced (retry count +1, next retry
`now + min MAX_RETRY_INTERVAL (RETRY_BASE_INTERVAL * 2 ^ retry_count)`
with the pre-advance retry count), due messages with retry count at least
`MAX_RETRY_ATTEMPTS` are dropped, everything else is untouched — and
returns the number of advanced messages.
(control queue module, `process_retry_queue`.) -/
theorem process_retry_queue_eq_spec (now : Int) (q : List control_message) :
    process_retry_queue now q =
      (q.countP (fun m => decide (0 < m.retry_count ∧ m.next_retry_time ≤ now ∧
          m.retry_count < MAX_RETRY_ATTEMPTS)),
       q.filterMap (retry_step_spec now)) := by
  induction q with
  | nil => rfl
  | cons m rest ih =>
    by_cases hdue : 0 < m.retry_count ∧ m.next_retry_time ≤ now
    · by_cases hmax : MAX_RETRY_ATTEMPTS ≤ m.retry_count
      · have hp : ¬(0 < m.retry_count ∧ m.next_retry_time ≤ now ∧
            m.retry_count < MAX_RETRY_ATTEMPTS) := by
          rintro ⟨-, -, hlt⟩; omega
        simp only [process_retry_queue, if_pos hdue, if_pos hmax, ih,
          List.countP_cons, List.filterMap_cons, retry_step_spec,
          decide_eq_true_eq, hp, if_false, decide_False, Bool.false_eq_true]
        simp
      · have hp : (0 < m.retry_count ∧ m.next_retry_time ≤ now ∧
            m.retry_count < MAX_RETRY_ATTEMPTS) := ⟨hdue.1, hdue.2, by omega⟩
        have hmin : (if MAX_RETRY_INTERVAL < RETRY_BASE_INTERVAL * 2 ^ m.retry_count
            then MAX_RETRY_INTERVAL else RETRY_BASE_INTERVAL * 2 ^ m.retry_count)
            = min MAX_RETRY_INTERVAL (RETRY_BASE_INTERVAL * 2 ^ m.retry_count) := by
          rcases Nat.lt_or_ge MAX_RETRY_INTERVAL (RETRY_BASE_INTERVAL * 2 ^ m.retry_count)
            with h | h
          · rw [if_pos h, Nat.min_eq_left (Nat.le_of_lt h)]
          · rw [if_neg (by omega), Nat.min_eq_right h]
        simp only [process_retry_queue, if_pos hdue, if_neg hmax, ih,
          List.filterMap_cons, retry_step_spec, hp,
          decide_True, if_true, if_neg hmax, hmin]
        simp [List.countP_cons, hp, Nat.add_comm]
    · have hp : ¬(0 < m.retry_count ∧ m.next_retry_time ≤ now ∧
          m.retry_count < MAX_RETRY_ATTEMPTS) := by
        rintro ⟨h1, h2, -⟩; exact hdue ⟨h1, h2⟩
      simp only [process_retry_queue, if_neg hdue, ih, List.countP_cons,
        List.filterMap_cons, retry_step_spec, hp, decide_False,
        Bool.false_eq_true, if_false, if_neg hdue]
      simp

/-- C1 fails on the code: `receive_control_message` records (originator,
seq) in the duplicate set and then calls `process_tc_message`, whose own
duplicate check finds the just-inserted pair and discards the message.  A
fresh TC delivered through the protocol loop's receive entry (here the
spec's scenario S4: originator 0x0A000010, seq 7, selector 0x0A000011,
ttl 5, delivered by symmetric MPR-selector neighbor 0x0A000002) therefore
adds no topology link and forwards nothing; only the duplicate entry is
recorded.  This contradicts the function's own documentation (steps 4-5:
process content, forward via MPR flooding). -/
theorem receive_path_drops_fresh_tc :
    (is_duplicate_message
      (⟨0x0A000001, 3, -1,
        [⟨0x0A000002, SYM_LINK, 100, 100, 3, false, true⟩],
        [], [], [], [], [], [], [], 0, 0⟩ : olsr_state).duplicate_table
      0x0A000010 7 = false) ∧
    (receive_control_message
      ⟨0x0A000001, 3, -1,
        [⟨0x0A000002, SYM_LINK, 100, 100, 3, false, true⟩],
        [], [], [], [], [], [], [], 0, 0⟩
      [] (message_payload.tc ⟨5, [0x0A000011]⟩) MSG_TC
      0x0A000002 0x0A000010 7 5 1 1000).1.global_topology = [] ∧
    (receive_control_message
      ⟨0x0A000001, 3, -1,
        [⟨0x0A000002, SYM_LINK, 100, 100, 3, false, true⟩],
        [], [], [], [], [], [], [], 0, 0⟩
      [] (message_payload.tc ⟨5, [0x0A000011]⟩) MSG_TC
      0x0A000002 0x0A000010 7 5 1 1000).1.tc_topology = [] ∧
    (receive_control_message
      ⟨0x0A000001, 3, -1,
        [⟨0x0A000002, SYM_LINK, 100, 100, 3, false, true⟩],
        [], [], [], [], [], [], [], 0, 0⟩
      [] (message_payload.tc ⟨5, [0x0A000011]⟩) MSG_TC
      0x0A000002 0x0A000010 7 5 1 1000).2 = [] ∧
    (receive_control_message
      ⟨0x0A000001, 3, -1,
        [⟨0x0A000002, SYM_LINK, 100, 100, 3, false, true⟩],
        [], [], [], [], [], [], [], 0, 0⟩
      [] (message_payload.tc ⟨5, [0x0A000011]⟩) MSG_TC
      0x0A000002 0x0A000010 7 5 1 1000).1.duplicate_table =
      [⟨0x0A000010, 7, 1000⟩] := by decide

/-- The selector loop never touches the duplicate table. -/
theorem tc_selector_loop_duplicate_table (o a : Nat) (v : Int) :
    ∀ (l : List Nat) (st : olsr_state) (b : Bool),
    (tc_selector_loop o a v l st b).1.duplicate_table = st.duplicate_table := by
  intro l
  induction l with
  | nil => intro st b; rfl
  | cons s rest ih =>
    intro st b
    simp only [tc_selector_loop]
    rw [ih]

/-- Recomputing the routing table never touches the duplicate table. -/
theorem update_routing_table_duplicate_table (st : olsr_state) (now : Int) :
    (update_routing_table st now).duplicate_table = st.duplicate_table := by
  simp only [update_routing_table, calculate_routing_table, dijkstra_shortest_path,
    build_topology_graph]
  split
  · rfl
  · split
    · split <;> rfl
    · rfl

/-- A duplicate TC (its (originator, seq) pair already recorded) is dropped
with no state change and nothing queued. -/
theorem process_tc_message_duplicate (st : olsr_state) (q : List control_message)
    (msg : olsr_message) (tc : olsr_tc) (sender : Nat) (now : Int)
    (hdup : is_duplicate_message st.duplicate_table msg.originator msg.msg_seq_num = true) :
    process_tc_message st q msg tc sender now = (st, q) := by
  unfold process_tc_message
  by_cases hty2 : msg.msg_type ≠ MSG_TC
  · rw [if_pos hty2]
  · rw [if_neg hty2, if_pos hdup]

/-- A fresh TC leaves the duplicate table extended by exactly the attempt
to record its (originator, seq) pair. -/
theorem process_tc_message_fresh_duplicate_table (st : olsr_state)
    (q : List control_message) (msg : olsr_message) (tc : olsr_tc)
    (sender : Nat) (now : Int)
    (hty : msg.msg_type = MSG_TC)
    (hd : is_duplicate_message st.duplicate_table msg.originator msg.msg_seq_num = false) :
    (process_tc_message st q msg tc sender now).1.duplicate_table =
      (add_duplicate_entry st.duplicate_table msg.originator msg.msg_seq_num now).2 := by
  simp only [process_tc_message]
  rw [if_neg (by simp [hty]), if_neg (by simp [hd])]
  dsimp only
  split
  · rw [update_routing_table_duplicate_table, tc_selector_loop_duplicate_table]
  · rw [tc_selector_loop_duplicate_table]

/-- C5 as amended: provided the duplicate table has room to record the
(originator, seq) pair at the first call, processing the same TC twice in a
row leaves the state after the second call identical to the state after
the first — in particular the second call enqueues nothing — because the
first call records the pair and the second call's duplicate check then
drops the message before touching anything.  (tc.c `process_tc_message`,
routing.c `is_duplicate_message` / `add_duplicate_entry`.) -/
theorem process_tc_message_second_call_noop (st : olsr_state)
    (q : List control_message) (msg : olsr_message) (tc : olsr_tc)
    (sender : Nat) (now now2 : Int)
    (hty : msg.msg_type = MSG_TC)
    (hroom : st.duplicate_table.length < MAX_DUPLICATE_ENTRIES) :
    process_tc_message (process_tc_message st q msg tc sender now).1
      (process_tc_message st q msg tc sender now).2 msg tc sender now2 =
      process_tc_message st q msg tc sender now := by
  by_cases hdup : is_duplicate_message st.duplicate_table msg.originator msg.msg_seq_num = true
  · rw [process_tc_message_duplicate st q msg tc sender now hdup]
    exact process_tc_message_duplicate st q msg tc sender now2 hdup
  · have hd : is_duplicate_message st.duplicate_table msg.originator msg.msg_seq_num = false :=
      Bool.not_eq_true _ ▸ eq_false_of_ne_true hdup
    have hdt : (process_tc_message st q msg tc sender now).1.duplicate_table =
        st.duplicate_table ++ [⟨msg.originator, msg.msg_seq_num, now⟩] := by
      rw [process_tc_message_fresh_duplicate_table st q msg tc sender now hty hd]
      unfold add_duplicate_entry
      rw [if_neg (by omega)]
    exact process_tc_message_duplicate _ _ msg tc sender now2
      (by rw [hdt]; simp [is_duplicate_message])

/-- Witness for C5 (amended): a concrete fresh TC processed twice, the
second call a no-op by `process_tc_message_second_call_noop`. -/
theorem process_tc_message_second_call_noop_witness :
    process_tc_message
      (process_tc_message
        ⟨0x0A000001, 3, -1, [], [], [], [], [], [], [], [], 0, 0⟩
        [] ⟨MSG_TC, 15, 0x0A000010, 5, 1, 7⟩ ⟨5, [0x0A000011]⟩ 0x0A000002 1000).1
      (process_tc_message
        ⟨0x0A000001, 3, -1, [], [], [], [], [], [], [], [], 0, 0⟩
        [] ⟨MSG_TC, 15, 0x0A000010, 5, 1, 7⟩ ⟨5, [0x0A000011]⟩ 0x0A000002 1000).2
      ⟨MSG_TC, 15, 0x0A000010, 5, 1, 7⟩ ⟨5, [0x0A000011]⟩ 0x0A000002 1000 =
    process_tc_message
      ⟨0x0A000001, 3, -1, [], [], [], [], [], [], [], [], 0, 0⟩
      [] ⟨MSG_TC, 15, 0x0A000010, 5, 1, 7⟩ ⟨5, [0x0A000011]⟩ 0x0A000002 1000 :=
  process_tc_message_second_call_noop
    ⟨0x0A000001, 3, -1, [], [], [], [], [], [], [], [], 0, 0⟩
    [] ⟨MSG_TC, 15, 0x0A000010, 5, 1, 7⟩ ⟨5, [0x0A000011]⟩ 0x0A000002 1000 1000
    rfl (by decide)

/-- C5 fails on the code when the duplicate table is full: the first call
cannot record (originator, seq), so the second call re-processes the TC —
it appends a second copy of the (originator → selector) link to the legacy
`tc_topology` table, so the state after the second call differs from the
state after the first. -/
theorem process_tc_message_not_idempotent_when_duplicate_table_full :
    (process_tc_message
      ⟨0x0A000001, 3, -1, [], [], [], [], List.replicate 100 ⟨1, 1, 0⟩,
       [], [], [], 0, 0⟩
      [] ⟨MSG_TC, 15, 0x0A000010, 5, 1, 7⟩ ⟨5, [0x0A000011]⟩ 0x0A000002
      1000).1.tc_topology.length = 1 ∧
    (process_tc_message
      (process_tc_message
        ⟨0x0A000001, 3, -1, [], [], [], [], List.replicate 100 ⟨1, 1, 0⟩,
         [], [], [], 0, 0⟩
        [] ⟨MSG_TC, 15, 0x0A000010, 5, 1, 7⟩ ⟨5, [0x0A000011]⟩ 0x0A000002 1000).1
      (process_tc_message
        ⟨0x0A000001, 3, -1, [], [], [], [], List.replicate 100 ⟨1, 1, 0⟩,
         [], [], [], 0, 0⟩
        [] ⟨MSG_TC, 15, 0x0A000010, 5, 1, 7⟩ ⟨5, [0x0A000011]⟩ 0x0A000002 1000).2
      ⟨MSG_TC, 15, 0x0A000010, 5, 1, 7⟩ ⟨5, [0x0A000011]⟩ 0x0A000002
      1000).1.tc_topology.length = 2 := by decide

/-- The scan of `add_topology_link` only rewrites an entry in place: every
entry of the updated table is an original entry or carries the offered
`from` endpoint. -/
theorem topo_update_first_mem {f t a : Nat} {v : Int} :
    ∀ {tbl tbl2 : List global_topology_entry},
    topo_update_first f t a v tbl = some tbl2 →
    ∀ x ∈ tbl2, x ∈ tbl ∨ x.from_node = f := by
  intro tbl
  induction tbl with
  | nil => intro tbl2 h; exact absurd h (by simp [topo_update_first])
  | cons e rest ih =>
    intro tbl2 h x hx
    by_cases hb : (e.from_node == f && e.to_node == t) = true
    · unfold topo_update_first at h
      rw [if_pos hb] at h
      obtain rfl := Option.some_injective _ h
      rcases List.mem_cons.mp hx with rfl | hrest
      · by_cases hle : e.ansn ≤ a
        · right
          rw [if_pos hle]
          have hef : e.from_node = f ∧ e.to_node = t := by simpa using hb
          exact hef.1
        · left
          rw [if_neg hle]
          exact List.mem_cons_self _ _
      · exact Or.inl (List.mem_cons_of_mem _ hrest)
    · unfold topo_update_first at h
      rw [if_neg hb] at h
      cases hrec : topo_update_first f t a v rest with
      | none => rw [hrec] at h; exact absurd h (by simp)
      | some r2 =>
        rw [hrec] at h
        obtain rfl := Option.some_injective _ h
        rcases List.mem_cons.mp hx with rfl | hr2
        · exact Or.inl (List.mem_cons_self _ _)
        · rcases ih hrec x hr2 with hm | hf
          · exact Or.inl (List.mem_cons_of_mem _ hm)
          · exact Or.inr hf

/-- Every entry of the table after `add_topology_link` is an original entry
or carries the offered `from` endpoint. -/
theorem add_topology_link_mem (tbl : List global_topology_entry)
    (f t a : Nat) (v : Int) :
    ∀ x ∈ (add_topology_link tbl f t a v).2, x ∈ tbl ∨ x.from_node = f := by
  intro x hx
  unfold add_topology_link at hx
  cases hu : topo_update_first f t a v tbl with
  | some tbl2 =>
    rw [hu] at hx
    exact topo_update_first_mem hu x hx
  | none =>
    rw [hu] at hx
    by_cases hlen : tbl.length < MAX_TOPOLOGY_LINKS
    · rw [if_pos hlen] at hx
      rcases List.mem_append.mp hx with hm | hnew
      · exact Or.inl hm
      · right
        obtain rfl : x = ⟨f, t, a, v⟩ := by simpa using hnew
        rfl
    · rw [if_neg hlen] at hx
      exact Or.inl hx

/-- Every global-topology entry after the selector loop is an original
entry or carries the TC's originator as its `from` endpoint. -/
theorem tc_selector_loop_global_topology (o a : Nat) (v : Int) :
    ∀ (l : List Nat) (st : olsr_state) (b : Bool),
    ∀ x ∈ (tc_selector_loop o a v l st b).1.global_topology,
      x ∈ st.global_topology ∨ x.from_node = o := by
  intro l
  induction l with
  | nil => intro st b x hx; exact Or.inl hx
  | cons s rest ih =>
    intro st b x hx
    simp only [tc_selector_loop] at hx
    rcases ih _ _ x hx with hm | hf
    · rcases add_topology_link_mem st.global_topology o s a v x hm with hm2 | hf2
      · exact Or.inl hm2
      · exact Or.inr hf2
    · exact Or.inr hf

/-- Recomputing the routing table only expires global-topology entries:
every surviving entry was already in the table. -/
theorem update_routing_table_global_topology (st : olsr_state) (now : Int) :
    ∀ x ∈ (update_routing_table st now).global_topology, x ∈ st.global_topology := by
  intro x hx
  simp only [update_routing_table, calculate_routing_table, dijkstra_shortest_path,
    build_topology_graph, cleanup_topology_links] at hx
  split at hx
  · exact hx
  · split at hx
    · split at hx <;> exact (List.mem_filter.mp hx).1
    · exact (List.mem_filter.mp hx).1

/-- C9 as amended: every topology link that TC processing adds has the
message's originator as its `from` endpoint; hence, for every received TC
whose originator is not this node's id, processing never adds (nor leaves,
if none was there before) a topology link with `from` equal to this node's
own id.  The claim as originally stated fails only for a TC whose
originator field equals this node's id — see
`process_tc_message_forged_self_tc_adds_self_link`.  (tc.c
`process_tc_message`, routing.c `add_topology_link`.) -/
theorem process_tc_message_no_self_from (st : olsr_state)
    (q : List control_message) (msg : olsr_message) (tc : olsr_tc)
    (sender : Nat) (now : Int)
    (horig : msg.originator ≠ st.node_id)
    (hclean : ∀ l ∈ st.global_topology, l.from_node ≠ st.node_id) :
    ∀ l ∈ (process_tc_message st q msg tc sender now).1.global_topology,
      l.from_node ≠ st.node_id := by
  intro l hl
  simp only [process_tc_message] at hl
  split at hl
  · exact hclean l hl
  · split at hl
    · exact hclean l hl
    · have hbase : ∀ x ∈ (tc_selector_loop msg.originator tc.ansn
          (now + (msg.vtime : Int)) tc.mpr_selectors
          { st with duplicate_table := (add_duplicate_entry st.duplicate_table
              msg.originator msg.msg_seq_num now).2 } false).1.global_topology,
          x.from_node ≠ st.node_id := by
        intro x hx
        rcases tc_selector_loop_global_topology msg.originator tc.ansn
            (now + (msg.vtime : Int)) tc.mpr_selectors _ false x hx with hm | hf
        · exact hclean x hm
        · rw [hf]; exact horig
      dsimp only at hl
      split at hl
      · exact hbase l (update_routing_table_global_topology _ now l hl)
      · exact hbase l hl

/-- Witness for C9 (amended): a TC from originator 0x0A000010 processed at
node 0x0A000001 with an initially clean topology leaves no self-from link,
by `process_tc_message_no_self_from`. -/
theorem process_tc_message_no_self_from_witness :
    (process_tc_message
        ⟨0x0A000001, 3, -1, [], [], [], [], [], [], [], [], 0, 0⟩
        [] ⟨MSG_TC, 15, 0x0A000010, 5, 1, 7⟩ ⟨5, [0x0A000011]⟩ 0x0A000002
        1000).1.global_topology.all
      (fun l => !(l.from_node == 0x0A000001)) = true := by
  rw [List.all_eq_true]
  intro l hl
  have h := process_tc_message_no_self_from
    ⟨0x0A000001, 3, -1, [], [], [], [], [], [], [], [], 0, 0⟩
    [] ⟨MSG_TC, 15, 0x0A000010, 5, 1, 7⟩ ⟨5, [0x0A000011]⟩ 0x0A000002 1000
    (by decide) (by intro x hx; exact absurd hx (by simp)) l hl
  simpa using h

/-- C9 fails on the code as stated: `process_tc_message` has no guard
against a received TC whose originator field equals this node's own id, so
a forged (or replayed-with-fresh-seq) self-originated TC adds topology
links with `from` = this node.  Here node 0x0A000001 processes a TC with
originator 0x0A000001, seq 9, selector 0x0A000002, and the topology
database ends up holding a link from the node's own id. -/
theorem process_tc_message_forged_self_tc_adds_self_link :
    (process_tc_message
      ⟨0x0A000001, 3, -1, [], [], [], [], [], [], [], [], 0, 0⟩
      [] ⟨MSG_TC, 15, 0x0A000001, 5, 1, 9⟩ ⟨3, [0x0A000002]⟩ 7
      1000).1.global_topology.any (fun l => l.from_node == 0x0A000001) = true := by
  decide

/-- `calculate_mpr_set` only toggles `is_mpr` flags: any projection that
ignores `is_mpr` is unchanged across the whole computation. -/
theorem calculate_mpr_set_map {α : Type} (g : neighbor_entry → α)
    (hgm : ∀ (n : neighbor_entry) (b : Bool), g { n with is_mpr := b } = g n)
    (neighbors : List neighbor_entry) (two_hop : List two_hop_neighbor) :
    ((calculate_mpr_set neighbors two_hop).1).map g = neighbors.map g := by
  unfold calculate_mpr_set
  by_cases h2 : two_hop.length = 0
  · rw [if_pos h2]
    dsimp only
    rw [List.map_map]
    exact List.map_congr_left (fun n _ => hgm n false)
  · rw [if_neg h2]
    dsimp only
    rw [mpr_step3_map g hgm, mpr_step2_map g hgm, mpr_step1_map g hgm, List.map_map]
    exact List.map_congr_left (fun n _ => hgm n false)

/-- TDMA slot updates leave the two-hop table alone. -/
theorem update_neighbor_slot_reservation_two_hop (st : olsr_state)
    (neighbor_id : Nat) (s : Int) (hop : Nat) (now : Int) :
    (update_neighbor_slot_reservation st neighbor_id s hop now).two_hop_table =
      st.two_hop_table := by
  unfold update_neighbor_slot_reservation
  split
  · rfl
  · split
    · rfl
    · split <;> rfl

/-- TDMA slot updates leave the node id alone. -/
theorem update_neighbor_slot_reservation_node_id (st : olsr_state)
    (neighbor_id : Nat) (s : Int) (hop : Nat) (now : Int) :
    (update_neighbor_slot_reservation st neighbor_id s hop now).node_id =
      st.node_id := by
  unfold update_neighbor_slot_reservation
  split
  · rfl
  · split
    · rfl
    · split <;> rfl

/-- `handle_link_failure` removes from the two-hop table exactly the
entries reachable via the failed neighbor. -/
theorem handle_link_failure_two_hop (st : olsr_state) (id : Nat) (now : Int) :
    (handle_link_failure st id now).two_hop_table =
      st.two_hop_table.filter (fun e => !(e.one_hop_addr == id)) := by
  unfold handle_link_failure remove_two_hop_via_neighbor
  dsimp only
  rw [update_neighbor_slot_reservation_two_hop]

/-- `handle_link_failure` leaves the node id alone. -/
theorem handle_link_failure_node_id (st : olsr_state) (id : Nat) (now : Int) :
    (handle_link_failure st id now).node_id = st.node_id := by
  unfold handle_link_failure remove_two_hop_via_neighbor
  dsimp only
  rw [update_neighbor_slot_reservation_node_id]

/-- `handle_link_failure`'s slot table is that of the clearing update. -/
theorem handle_link_failure_slots (st : olsr_state) (id : Nat) (now : Int) :
    (handle_link_failure st id now).neighbor_slots =
      (update_neighbor_slot_reservation st id (-1) 1 now).neighbor_slots := by
  unfold handle_link_failure remove_two_hop_via_neighbor
  dsimp only

/-- The timeout scan returns the number of expired neighbors and keeps
exactly the unexpired ones, in order. -/
theorem neighbor_timeout_loop_count_filter (now : Int) :
    ∀ (l : List neighbor_entry) (st : olsr_state),
    (neighbor_timeout_loop now l st).1 =
      l.countP (fun n => decide (HELLO_TIMEOUT < now - n.last_hello_time)) ∧
    (neighbor_timeout_loop now l st).2.1 =
      l.filter (fun n => decide (now - n.last_hello_time ≤ HELLO_TIMEOUT)) := by
  intro l
  induction l with
  | nil => intro st; exact ⟨rfl, rfl⟩
  | cons n rest ih =>
    intro st
    by_cases hexp : HELLO_TIMEOUT < now - n.last_hello_time
    · simp only [neighbor_timeout_loop, if_pos hexp, List.countP_cons, List.filter_cons]
      constructor
      · rw [(ih _).1]
        simp [hexp]
      · rw [(ih _).2]
        rw [if_neg (by simp; omega)]
    · simp only [neighbor_timeout_loop, if_neg hexp, List.countP_cons, List.filter_cons]
      constructor
      · rw [(ih _).1]
        simp [hexp]
      · rw [(ih _).2]
        rw [if_pos (by simp; omega)]

/-- The timeout scan only ever removes two-hop entries. -/
theorem neighbor_timeout_loop_two_hop_subset (now : Int) :
    ∀ (l : List neighbor_entry) (st : olsr_state),
    ∀ e ∈ (neighbor_timeout_loop now l st).2.2.two_hop_table,
      e ∈ st.two_hop_table := by
  intro l
  induction l with
  | nil => intro st e he; exact he
  | cons n rest ih =>
    intro st e he
    by_cases hexp : HELLO_TIMEOUT < now - n.last_hello_time
    · simp only [neighbor_timeout_loop, if_pos hexp] at he
      have := ih _ e he
      rw [handle_link_failure_two_hop] at this
      exact (List.mem_filter.mp this).1
    · simp only [neighbor_timeout_loop, if_neg hexp] at he
      exact ih _ e he

/-- After the timeout scan, no two-hop entry is reachable via an expired
neighbor. -/
theorem neighbor_timeout_loop_two_hop_removed (now : Int) :
    ∀ (l : List neighbor_entry) (st : olsr_state) (n : neighbor_entry),
    n ∈ l → HELLO_TIMEOUT < now - n.last_hello_time →
    ∀ e ∈ (neighbor_timeout_loop now l st).2.2.two_hop_table,
      e.one_hop_addr ≠ n.neighbor_id := by
  intro l
  induction l with
  | nil => intro st n hn; exact absurd hn (by simp)
  | cons m rest ih =>
    intro st n hn hnexp e he
    by_cases hexp : HELLO_TIMEOUT < now - m.last_hello_time
    · simp only [neighbor_timeout_loop, if_pos hexp] at he
      rcases List.mem_cons.mp hn with rfl | hn2
      · have := neighbor_timeout_loop_two_hop_subset now rest _ e he
        rw [handle_link_failure_two_hop] at this
        have hne := (List.mem_filter.mp this).2
        simpa using hne
      · exact ih _ n hn2 hnexp e he
    · simp only [neighbor_timeout_loop, if_neg hexp] at he
      rcases List.mem_cons.mp hn with rfl | hn2
      · exact absurd hnexp hexp
      · exact ih _ n hn2 hnexp e he

/-- If the in-place scan finds nothing to update, no entry matches. -/
theorem update_first_none_find? {α : Type} (p : α → Bool) (f : α → α) :
    ∀ l : List α, update_first p f l = none → l.find? p = none := by
  intro l
  induction l with
  | nil => intro h; rfl
  | cons x rest ih =>
    intro h
    by_cases hp : p x = true
    · unfold update_first at h
      rw [if_pos hp] at h
      exact absurd h (by simp)
    · unfold update_first at h
      rw [if_neg hp] at h
      cases hrec : update_first p f rest with
      | some r => rw [hrec] at h; exact absurd h (by simp)
      | none =>
        rw [List.find?_cons_of_neg _ hp]
        exact ih hrec

/-- Clearing a slot via the in-place scan yields reservation -1 for the
cleared id, and preserves an already-cleared (-1 or absent) reservation of
any id. -/
theorem slot_update_first_lookup (id id2 : Nat) (now : Int) (hop : Nat) :
    ∀ (slots l : List slot_entry),
    update_first (fun e => e.node_id == id2)
      (fun e => { e with reserved_slot := -1, last_updated := now,
                         hop_distance := hop }) slots = some l →
    (get_neighbor_slot_reservation slots id = -1 ∨ id = id2) →
    get_neighbor_slot_reservation l id = -1 := by
  intro slots
  induction slots with
  | nil => intro l h; exact absurd h (by simp [update_first])
  | cons e rest ih =>
    intro l h hpre
    by_cases hb : (e.node_id == id2) = true
    · unfold update_first at h
      rw [if_pos hb] at h
      obtain rfl := Option.some_injective _ h
      by_cases hid : (e.node_id == id) = true
      · unfold get_neighbor_slot_reservation
        rw [List.find?_cons_of_pos (p := fun e : slot_entry => e.node_id == id) _ (by simpa using hid)]
      · unfold get_neighbor_slot_reservation at hpre ⊢
        rw [List.find?_cons_of_neg (p := fun e : slot_entry => e.node_id == id) _ (by simpa using hid)]
        rcases hpre with hpre | heq
        · rw [List.find?_cons_of_neg (p := fun e : slot_entry => e.node_id == id) _ hid] at hpre
          exact hpre
        · rw [heq] at hid
          exact absurd hb hid
    · unfold update_first at h
      rw [if_neg hb] at h
      cases hrec : update_first (fun e => e.node_id == id2)
          (fun e => { e with reserved_slot := -1, last_updated := now,
                             hop_distance := hop }) rest with
      | none => rw [hrec] at h; exact absurd h (by simp)
      | some r =>
        rw [hrec] at h
        obtain rfl := Option.some_injective _ h
        by_cases hid : (e.node_id == id) = true
        · have hne : ¬ id = id2 := by
            intro heq2
            rw [heq2] at hid
            exact hb hid
          rcases hpre with hpre | rfl
          · unfold get_neighbor_slot_reservation at hpre ⊢
            rw [List.find?_cons_of_pos (p := fun e : slot_entry => e.node_id == id) _ hid] at hpre ⊢
            exact hpre
          · exact absurd rfl hne
        · unfold get_neighbor_slot_reservation at hpre ⊢
          rw [List.find?_cons_of_neg (p := fun e : slot_entry => e.node_id == id) _ hid] at hpre ⊢
          rcases hpre with hpre | rfl
          · exact ih r hrec (Or.inl hpre)
          · exact ih r hrec (Or.inr rfl)

/-- Clearing a slot reservation (slot -1) leaves the cleared id with
reservation -1, and preserves any already-cleared reservation. -/
theorem update_slot_clear_lookup (st : olsr_state) (id id2 : Nat) (hop : Nat)
    (now : Int)
    (h : get_neighbor_slot_reservation st.neighbor_slots id = -1 ∨
      (id = id2 ∧ id2 ≠ 0 ∧ id2 ≠ st.node_id)) :
    get_neighbor_slot_reservation
      (update_neighbor_slot_reservation st id2 (-1) hop now).neighbor_slots id = -1 := by
  unfold update_neighbor_slot_reservation
  by_cases hskip : id2 = 0 ∨ id2 = st.node_id
  · rw [if_pos hskip]
    rcases h with h | ⟨rfl, h2, h3⟩
    · exact h
    · rcases hskip with h4 | h4
      · exact absurd h4 h2
      · exact absurd h4 h3
  · rw [if_neg hskip]
    cases hu : update_first (fun e => e.node_id == id2)
        (fun e => { e with reserved_slot := -1, last_updated := now,
                           hop_distance := hop }) st.neighbor_slots with
    | some l =>
      exact slot_update_first_lookup id id2 now hop st.neighbor_slots l hu
        (by rcases h with h | ⟨rfl, -⟩
            · exact Or.inl h
            · exact Or.inr rfl)
    | none =>
      rw [if_neg (by simp)]
      rcases h with h | ⟨rfl, -⟩
      · exact h
      · unfold get_neighbor_slot_reservation
        rw [update_first_none_find? _ _ _ hu]

/-- The timeout scan preserves cleared (-1) slot reservations. -/
theorem neighbor_timeout_loop_slot_stable (now : Int) :
    ∀ (l : List neighbor_entry) (st : olsr_state) (id : Nat),
    get_neighbor_slot_reservation st.neighbor_slots id = -1 →
    get_neighbor_slot_reservation
      (neighbor_timeout_loop now l st).2.2.neighbor_slots id = -1 := by
  intro l
  induction l with
  | nil => intro st id h; exact h
  | cons m rest ih =>
    intro st id h
    by_cases hexp : HELLO_TIMEOUT < now - m.last_hello_time
    · simp only [neighbor_timeout_loop, if_pos hexp]
      refine ih _ id ?_
      rw [handle_link_failure_slots]
      exact update_slot_clear_lookup st id m.neighbor_id 1 now (Or.inl h)
    · simp only [neighbor_timeout_loop, if_neg hexp]
      exact ih _ id h

/-- After the timeout scan, every expired neighbor (with a sane id) has no
recorded slot reservation. -/
theorem neighbor_timeout_loop_slot_removed (now : Int) :
    ∀ (l : List neighbor_entry) (st : olsr_state) (n : neighbor_entry),
    n ∈ l → HELLO_TIMEOUT < now - n.last_hello_time →
    n.neighbor_id ≠ 0 → n.neighbor_id ≠ st.node_id →
    get_neighbor_slot_reservation
      (neighbor_timeout_loop now l st).2.2.neighbor_slots n.neighbor_id = -1 := by
  intro l
  induction l with
  | nil => intro st n hn; exact absurd hn (by simp)
  | cons m rest ih =>
    intro st n hn hnexp h0 hself
    by_cases hexp : HELLO_TIMEOUT < now - m.last_hello_time
    · simp only [neighbor_timeout_loop, if_pos hexp]
      rcases List.mem_cons.mp hn with rfl | hn2
      · refine neighbor_timeout_loop_slot_stable now rest _ n.neighbor_id ?_
        rw [handle_link_failure_slots]
        exact update_slot_clear_lookup st n.neighbor_id n.neighbor_id 1 now
          (Or.inr ⟨rfl, h0, hself⟩)
      · refine ih _ n hn2 hnexp h0 ?_
        rw [handle_link_failure_node_id]
        exact hself
    · simp only [neighbor_timeout_loop, if_neg hexp]
      rcases List.mem_cons.mp hn with rfl | hn2
      · exact absurd hnexp hexp
      · exact ih _ n hn2 hnexp h0 hself

/-- The MPR recomputation only toggles `is_mpr` flags of the neighbor
table (any `is_mpr`-ignoring projection unchanged). -/
theorem calculate_mpr_set_state_neighbor_map {α : Type} (g : neighbor_entry → α)
    (hgm : ∀ (n : neighbor_entry) (b : Bool), g { n with is_mpr := b } = g n)
    (st : olsr_state) :
    (calculate_mpr_set_state st).neighbor_table.map g = st.neighbor_table.map g := by
  unfold calculate_mpr_set_state
  exact calculate_mpr_set_map g hgm _ _

/-- C6: `check_neighbor_timeouts` removes from the neighbor table exactly
the neighbors silent for more than `HELLO_TIMEOUT` (the kept entries
change at most their recomputed `is_mpr` flags), returns the number
removed, and for each removed neighbor the final state has no two-hop
entry via it and (for a non-zero, non-self id) no TDMA slot reservation
for it; a positive return makes `init_olsr`'s timeout block enqueue an
emergency HELLO and set the topology-changed flag, which the
end-of-iteration block turns into a routing recomputation.
(rrc_olsr_interface.h `check_neighbor_timeouts` / `handle_link_failure`,
main.c `init_olsr`.) -/
theorem check_neighbor_timeouts_spec (st : olsr_state)
    (q : List control_message) (b : Bool) (now : Int) :
    ((check_neighbor_timeouts st now).2.neighbor_table.map
        (fun n => { n with is_mpr := false }) =
      (st.neighbor_table.filter
        (fun n => decide (now - n.last_hello_time ≤ HELLO_TIMEOUT))).map
        (fun n => { n with is_mpr := false })) ∧
    ((check_neighbor_timeouts st now).1 =
      st.neighbor_table.countP
        (fun n => decide (HELLO_TIMEOUT < now - n.last_hello_time))) ∧
    (∀ n ∈ st.neighbor_table, HELLO_TIMEOUT < now - n.last_hello_time →
      (∀ e ∈ (check_neighbor_timeouts st now).2.two_hop_table,
        e.one_hop_addr ≠ n.neighbor_id) ∧
      (n.neighbor_id ≠ 0 → n.neighbor_id ≠ st.node_id →
        get_neighbor_slot_reservation
          (check_neighbor_timeouts st now).2.neighbor_slots n.neighbor_id = -1)) ∧
    (0 < (check_neighbor_timeouts st now).1 →
      (init_olsr_timeout_block st q b now).2.1 =
        q ++ [⟨MSG_HELLO, now, 0, 0, 0, message_payload.hello
          (generate_hello_message (check_neighbor_timeouts st now).2)⟩] ∧
      (init_olsr_timeout_block st q b now).2.2.1 = true) ∧
    (∀ st2, init_olsr_routing_block st2 true now =
      (update_routing_table st2 now, false)) := by
  have hcf := neighbor_timeout_loop_count_filter now st.neighbor_table st
  refine ⟨?_, ?_, ?_, ?_, ?_⟩
  · simp only [check_neighbor_timeouts]
    split
    · dsimp only
      rw [calculate_mpr_set_state_neighbor_map
        (fun n : neighbor_entry => ({ n with is_mpr := false } : neighbor_entry))
        (fun _ _ => rfl)]
      exact congrArg _ hcf.2
    · dsimp only
      exact congrArg _ hcf.2
  · simp only [check_neighbor_timeouts]
    split
    · exact hcf.1
    · exact hcf.1
  · intro n hn hexp
    have h2 : (check_neighbor_timeouts st now).2.two_hop_table =
        (neighbor_timeout_loop now st.neighbor_table st).2.2.two_hop_table := by
      simp only [check_neighbor_timeouts]
      split <;> rfl
    have h3 : (check_neighbor_timeouts st now).2.neighbor_slots =
        (neighbor_timeout_loop now st.neighbor_table st).2.2.neighbor_slots := by
      simp only [check_neighbor_timeouts]
      split <;> rfl
    constructor
    · intro e he
      rw [h2] at he
      exact neighbor_timeout_loop_two_hop_removed now st.neighbor_table st n hn hexp e he
    · intro h0 hself
      rw [h3]
      exact neighbor_timeout_loop_slot_removed now st.neighbor_table st n hn hexp h0 hself
  · intro hpos
    constructor
    · simp only [init_olsr_timeout_block]
      rw [if_pos hpos]
      rfl
    · simp only [init_olsr_timeout_block]
      rw [if_pos hpos]
  · intro st2
    simp [init_olsr_routing_block]

/-- Witness for C6: node 1 with neighbor 5 last heard at time 0, checked
at time 10 (silent for 10 s > 6 s): the neighbor, its two-hop entry
(9 via 5) and its slot reservation are gone, the scan reports one failure,
and the caller's block enqueues an emergency HELLO; all through
`check_neighbor_timeouts_spec`. -/
theorem check_neighbor_timeouts_spec_witness :
    ((check_neighbor_timeouts
        ⟨1, 3, -1, [⟨5, SYM_LINK, 0, 0, 3, false, false⟩], [⟨9, 5, 0⟩], [],
         [⟨5, 4, 0, 1⟩], [], [], [], [], 0, 0⟩ 10).1 =
      ([⟨5, SYM_LINK, 0, 0, 3, false, false⟩] : List neighbor_entry).countP
        (fun n => decide ((10 : Int) - n.last_hello_time > HELLO_TIMEOUT))) ∧
    (∀ e ∈ (check_neighbor_timeouts
        ⟨1, 3, -1, [⟨5, SYM_LINK, 0, 0, 3, false, false⟩], [⟨9, 5, 0⟩], [],
         [⟨5, 4, 0, 1⟩], [], [], [], [], 0, 0⟩ 10).2.two_hop_table,
      e.one_hop_addr ≠ 5) ∧
    (get_neighbor_slot_reservation (check_neighbor_timeouts
        ⟨1, 3, -1, [⟨5, SYM_LINK, 0, 0, 3, false, false⟩], [⟨9, 5, 0⟩], [],
         [⟨5, 4, 0, 1⟩], [], [], [], [], 0, 0⟩ 10).2.neighbor_slots 5 = -1) ∧
    ((init_olsr_timeout_block
        ⟨1, 3, -1, [⟨5, SYM_LINK, 0, 0, 3, false, false⟩], [⟨9, 5, 0⟩], [],
         [⟨5, 4, 0, 1⟩], [], [], [], [], 0, 0⟩ [] false 10).2.2.1 = true) :=
  ⟨(check_neighbor_timeouts_spec
      ⟨1, 3, -1, [⟨5, SYM_LINK, 0, 0, 3, false, false⟩], [⟨9, 5, 0⟩], [],
       [⟨5, 4, 0, 1⟩], [], [], [], [], 0, 0⟩ [] false 10).2.1,
   ((check_neighbor_timeouts_spec
      ⟨1, 3, -1, [⟨5, SYM_LINK, 0, 0, 3, false, false⟩], [⟨9, 5, 0⟩], [],
       [⟨5, 4, 0, 1⟩], [], [], [], [], 0, 0⟩ [] false 10).2.2.1
      ⟨5, SYM_LINK, 0, 0, 3, false, false⟩ (by decide) (by decide)).1,
   ((check_neighbor_timeouts_spec
      ⟨1, 3, -1, [⟨5, SYM_LINK, 0, 0, 3, false, false⟩], [⟨9, 5, 0⟩], [],
       [⟨5, 4, 0, 1⟩], [], [], [], [], 0, 0⟩ [] false 10).2.2.1
      ⟨5, SYM_LINK, 0, 0, 3, false, false⟩ (by decide) (by decide)).2
      (by decide) (by decide),
   ((check_neighbor_timeouts_spec
      ⟨1, 3, -1, [⟨5, SYM_LINK, 0, 0, 3, false, false⟩], [⟨9, 5, 0⟩], [],
       [⟨5, 4, 0, 1⟩], [], [], [], [], 0, 0⟩ [] false 10).2.2.2.1
      (by decide)).2⟩

/-- The in-place update preserves any projection the update function
preserves. -/
theorem update_first_map {α β : Type} (p : α → Bool) (f : α → α) (g : α → β)
    (hf : ∀ x, g (f x) = g x) :
    ∀ {l l2 : List α}, update_first p f l = some l2 → l2.map g = l.map g := by
  intro l
  induction l with
  | nil => intro l2 h; exact absurd h (by simp [update_first])
  | cons x rest ih =>
    intro l2 h
    by_cases hp : p x = true
    · unfold update_first at h
      rw [if_pos hp] at h
      obtain rfl := Option.some_injective _ h
      simp [hf]
    · unfold update_first at h
      rw [if_neg hp] at h
      cases hrec : update_first p f rest with
      | none => rw [hrec] at h; exact absurd h (by simp)
      | some r =>
        rw [hrec] at h
        obtain rfl := Option.some_injective _ h
        simp [ih hrec]

/-- If the in-place update succeeds, some entry matches. -/
theorem update_first_some_any {α : Type} (p : α → Bool) (f : α → α) :
    ∀ {l l2 : List α}, update_first p f l = some l2 → l.any p = true := by
  intro l
  induction l with
  | nil => intro l2 h; exact absurd h (by simp [update_first])
  | cons x rest ih =>
    intro l2 h
    by_cases hp : p x = true
    · simp [hp]
    · unfold update_first at h
      rw [if_neg hp] at h
      cases hrec : update_first p f rest with
      | none => rw [hrec] at h; exact absurd h (by simp)
      | some r => simp [ih hrec]

/-- If the in-place update fails, no entry matches. -/
theorem update_first_none_any {α : Type} (p : α → Bool) (f : α → α) :
    ∀ {l : List α}, update_first p f l = none → l.any p = false := by
  intro l
  induction l with
  | nil => intro h; rfl
  | cons x rest ih =>
    intro h
    by_cases hp : p x = true
    · unfold update_first at h
      rw [if_pos hp] at h
      exact absurd h (by simp)
    · unfold update_first at h
      rw [if_neg hp] at h
      cases hrec : update_first p f rest with
      | some r => rw [hrec] at h; exact absurd h (by simp)
      | none => simp [hp, ih hrec]

/-- The (two-hop, via) pairs recorded in a two-hop table. -/
def two_hop_pairs (tbl : List two_hop_neighbor) : List (Nat × Nat) :=
  tbl.map (fun e => (e.neighbor_id, e.one_hop_addr))

/-- Pair membership is membership in the pair projection. -/
theorem two_hop_pair_mem_iff (tbl : List two_hop_neighbor) (a b : Nat) :
    two_hop_pair_mem tbl a b = true ↔ (a, b) ∈ two_hop_pairs tbl := by
  unfold two_hop_pair_mem two_hop_pairs
  rw [List.any_eq_true]
  constructor
  · rintro ⟨e, he, hp⟩
    obtain ⟨h1, h2⟩ : e.neighbor_id = a ∧ e.one_hop_addr = b := by simpa using hp
    rw [← h1, ← h2]
    exact List.mem_map_of_mem _ he
  · intro hm
    obtain ⟨e, he, hp⟩ := List.mem_map.mp hm
    refine ⟨e, he, ?_⟩
    obtain ⟨h1, h2⟩ : e.neighbor_id = a ∧ e.one_hop_addr = b := by
      constructor <;> [exact congrArg Prod.fst hp; exact congrArg Prod.snd hp]
    simp [h1, h2]

/-- `add_two_hop_neighbor` pair semantics: an existing pair only has its
`last_seen` refreshed (the pair projection is untouched); an absent pair
is appended when the table is below capacity and dropped otherwise. -/
theorem add_two_hop_neighbor_pairs (st : olsr_state) (a b : Nat) (now : Int) :
    two_hop_pairs (add_two_hop_neighbor st a b now).2.two_hop_table =
      (if two_hop_pair_mem st.two_hop_table a b then two_hop_pairs st.two_hop_table
       else if MAX_TWO_HOP_NEIGHBORS ≤ st.two_hop_table.length then
         two_hop_pairs st.two_hop_table
       else two_hop_pairs st.two_hop_table ++ [(a, b)]) := by
  unfold add_two_hop_neighbor
  cases hu : update_first
      (fun e => e.neighbor_id == a && e.one_hop_addr == b)
      (fun e => { e with last_seen := now }) st.two_hop_table with
  | some l =>
    dsimp only
    have hmem : two_hop_pair_mem st.two_hop_table a b = true :=
      update_first_some_any _ _ hu
    rw [hmem, if_pos rfl]
    exact update_first_map _ (fun e : two_hop_neighbor => { e with last_seen := now })
      (fun e : two_hop_neighbor => (e.neighbor_id, e.one_hop_addr)) (fun x => rfl) hu
  | none =>
    dsimp only
    have hmem : two_hop_pair_mem st.two_hop_table a b = false :=
      update_first_none_any _ _ hu
    rw [hmem]
    by_cases hlen : MAX_TWO_HOP_NEIGHBORS ≤ st.two_hop_table.length
    · rw [if_pos hlen]
      simp [hlen]
    · rw [if_neg hlen]
      simp [hlen, two_hop_pairs]

/-- `add_two_hop_neighbor` leaves the neighbor table alone. -/
theorem add_two_hop_neighbor_neighbor_table (st : olsr_state) (a b : Nat)
    (now : Int) :
    (add_two_hop_neighbor st a b now).2.neighbor_table = st.neighbor_table := by
  unfold add_two_hop_neighbor
  split
  · rfl
  · split <;> rfl

/-- `add_two_hop_neighbor` leaves the node id alone. -/
theorem add_two_hop_neighbor_node_id (st : olsr_state) (a b : Nat) (now : Int) :
    (add_two_hop_neighbor st a b now).2.node_id = st.node_id := by
  unfold add_two_hop_neighbor
  split
  · rfl
  · split <;> rfl

/-- `add_two_hop_neighbor` grows the table by at most one entry. -/
theorem add_two_hop_neighbor_length (st : olsr_state) (a b : Nat) (now : Int) :
    (add_two_hop_neighbor st a b now).2.two_hop_table.length ≤
      st.two_hop_table.length + 1 := by
  have h2 : (add_two_hop_neighbor st a b now).2.two_hop_table.length =
      (two_hop_pairs (add_two_hop_neighbor st a b now).2.two_hop_table).length := by
    simp [two_hop_pairs]
  have hl : ∀ t : List two_hop_neighbor, (two_hop_pairs t).length = t.length := by
    intro t; simp [two_hop_pairs]
  rw [h2, add_two_hop_neighbor_pairs]
  split
  · rw [hl]; omega
  · split
    · rw [hl]; omega
    · simp [two_hop_pairs]

/-- The HELLO TDMA loop leaves the two-hop table alone. -/
theorem hello_tdma_loop_two_hop (now : Int) :
    ∀ (rs : List two_hop_hello_neighbor) (st : olsr_state),
    (hello_tdma_loop now rs st).two_hop_table = st.two_hop_table := by
  intro rs
  induction rs with
  | nil => intro st; rfl
  | cons r rest ih =>
    intro st
    unfold hello_tdma_loop
    split
    · rw [ih, update_neighbor_slot_reservation_two_hop]
    · rw [ih]

/-- `update_neighbor` leaves the two-hop table alone. -/
theorem update_neighbor_two_hop (st : olsr_state) (id lt w : Nat) (now : Int) :
    (update_neighbor st id lt w now).two_hop_table = st.two_hop_table := by
  unfold update_neighbor
  split
  · rfl
  · unfold add_neighbor
    split
    · rfl
    · rfl

/-- The HELLO neighbor phase leaves the two-hop table alone. -/
theorem hello_neighbor_phase_two_hop (st : olsr_state) (hello : olsr_hello)
    (sender : Nat) (now : Int) :
    (hello_neighbor_phase st hello sender now).two_hop_table =
      st.two_hop_table := by
  simp only [hello_neighbor_phase]
  split
  · split <;>
      simp [update_neighbor_two_hop, hello_tdma_loop_two_hop,
        update_neighbor_slot_reservation_two_hop]
  · split <;>
      simp [update_neighbor_two_hop, hello_tdma_loop_two_hop,
        update_neighbor_slot_reservation_two_hop]

/-- MPR recomputation leaves the two-hop table alone. -/
theorem calculate_mpr_set_state_two_hop (st : olsr_state) :
    (calculate_mpr_set_state st).two_hop_table = st.two_hop_table := rfl

/-- The MPR-selector update leaves the two-hop table alone. -/
theorem update_mpr_selector_status_two_hop (st : olsr_state)
    (hello : olsr_hello) (sender : Nat) :
    (update_mpr_selector_status st hello sender).two_hop_table =
      st.two_hop_table := by
  simp only [update_mpr_selector_status]
  split
  · rfl
  · rfl

/-- The TDMA expiry sweep leaves the two-hop table alone. -/
theorem cleanup_expired_reservations_two_hop (st : olsr_state)
    (max_age now : Int) :
    (cleanup_expired_reservations st max_age now).two_hop_table =
      st.two_hop_table := rfl

/-- The two-hop derivation loop leaves the neighbor table alone. -/
theorem hello_two_hop_loop_neighbor_table (sender : Nat) (now : Int) :
    ∀ (rs : List hello_neighbor) (st : olsr_state),
    (hello_two_hop_loop sender now rs st).neighbor_table =
      st.neighbor_table := by
  intro rs
  induction rs with
  | nil => intro st; rfl
  | cons r rest ih =>
    intro st
    unfold hello_two_hop_loop
    split
    · rw [ih]
    · split
      · rw [ih, add_two_hop_neighbor_neighbor_table]
      · rw [ih]

/-- The two-hop derivation loop leaves the node id alone. -/
theorem hello_two_hop_loop_node_id (sender : Nat) (now : Int) :
    ∀ (rs : List hello_neighbor) (st : olsr_state),
    (hello_two_hop_loop sender now rs st).node_id = st.node_id := by
  intro rs
  induction rs with
  | nil => intro st; rfl
  | cons r rest ih =>
    intro st
    unfold hello_two_hop_loop
    split
    · rw [ih]
    · split
      · rw [ih, add_two_hop_neighbor_node_id]
      · rw [ih]

/-- Membership characterization of the two-hop derivation loop: below
capacity, the pair (X, via) is recorded afterwards iff it was recorded
before, or via is the sender, X is not this node, X is not a one-hop
neighbor, and some advertised entry names X with a symmetric link code. -/
theorem hello_two_hop_loop_mem (sender : Nat) (now : Int) :
    ∀ (rs : List hello_neighbor) (st : olsr_state) (X via : Nat),
    st.two_hop_table.length + rs.length ≤ MAX_TWO_HOP_NEIGHBORS →
    (two_hop_pair_mem (hello_two_hop_loop sender now rs st).two_hop_table X via
        = true ↔
      (two_hop_pair_mem st.two_hop_table X via = true ∨
       (via = sender ∧ X ≠ st.node_id ∧
        st.neighbor_table.any (fun n => n.neighbor_id == X) = false ∧
        rs.any (fun r => r.neighbor_id == X && r.link_code == SYM_LINK)
          = true))) := by
  intro rs
  induction rs with
  | nil =>
    intro st X via hcap
    simp [hello_two_hop_loop]
  | cons r rest ih =>
    intro st X via hcap
    have hcap' : st.two_hop_table.length + rest.length ≤ MAX_TWO_HOP_NEIGHBORS := by
      simp only [List.length_cons] at hcap; omega
    unfold hello_two_hop_loop
    by_cases hskip : r.neighbor_id = st.node_id
    · rw [if_pos hskip, ih st X via hcap']
      constructor
      · rintro (h | ⟨h1, h2, h3, h4⟩)
        · exact Or.inl h
        · exact Or.inr ⟨h1, h2, h3, by simp [List.any_cons, h4]⟩
      · rintro (h | ⟨h1, h2, h3, h4⟩)
        · exact Or.inl h
        · refine Or.inr ⟨h1, h2, h3, ?_⟩
          rw [List.any_cons, Bool.or_eq_true] at h4
          rcases h4 with hr | hr
          · obtain ⟨ha, hb⟩ : r.neighbor_id = X ∧ r.link_code = SYM_LINK := by
              simpa using hr
            exact absurd (by rw [← ha]; exact hskip.symm) h2.symm
          · exact hr
    · rw [if_neg hskip]
      by_cases hone : st.neighbor_table.any
          (fun n => n.neighbor_id == r.neighbor_id) = true
      · have hcnd : (!(st.neighbor_table.any
            (fun n => n.neighbor_id == r.neighbor_id)) &&
              r.link_code == SYM_LINK) = false := by
          rw [hone]; rfl
        rw [if_neg (by simp [hcnd]), ih st X via hcap']
        constructor
        · rintro (h | ⟨h1, h2, h3, h4⟩)
          · exact Or.inl h
          · exact Or.inr ⟨h1, h2, h3, by simp [List.any_cons, h4]⟩
        · rintro (h | ⟨h1, h2, h3, h4⟩)
          · exact Or.inl h
          · refine Or.inr ⟨h1, h2, h3, ?_⟩
            rw [List.any_cons, Bool.or_eq_true] at h4
            rcases h4 with hr | hr
            · obtain ⟨ha, hb⟩ : r.neighbor_id = X ∧ r.link_code = SYM_LINK := by
                simpa using hr
              rw [ha] at hone
              exact absurd hone (by simp [h3])
            · exact hr
      · by_cases hsym : r.link_code = SYM_LINK
        · have hcnd : (!(st.neighbor_table.any
              (fun n => n.neighbor_id == r.neighbor_id)) &&
                r.link_code == SYM_LINK) = true := by
            simp [hsym, Bool.not_eq_true] at hone ⊢
            exact hone
          rw [if_pos hcnd]
          have hnt := add_two_hop_neighbor_neighbor_table st r.neighbor_id sender now
          have hni := add_two_hop_neighbor_node_id st r.neighbor_id sender now
          have hln := add_two_hop_neighbor_length st r.neighbor_id sender now
          have hcap2 : (add_two_hop_neighbor st r.neighbor_id sender
              now).2.two_hop_table.length + rest.length ≤ MAX_TWO_HOP_NEIGHBORS := by
            simp only [List.length_cons] at hcap; omega
          have ih' := ih (add_two_hop_neighbor st r.neighbor_id sender now).2
            X via hcap2
          rw [hnt, hni] at ih'
          rw [ih']
          have hlt : ¬ MAX_TWO_HOP_NEIGHBORS ≤ st.two_hop_table.length := by
            simp only [List.length_cons] at hcap; omega
          have hpairs := add_two_hop_neighbor_pairs st r.neighbor_id sender now
          rw [if_neg hlt] at hpairs
          by_cases hmem : two_hop_pair_mem st.two_hop_table r.neighbor_id sender
              = true
          · rw [if_pos hmem] at hpairs
            have hmm : (two_hop_pair_mem (add_two_hop_neighbor st r.neighbor_id
                sender now).2.two_hop_table X via = true) ↔
                (two_hop_pair_mem st.two_hop_table X via = true) := by
              rw [two_hop_pair_mem_iff, two_hop_pair_mem_iff, hpairs]
            rw [hmm]
            constructor
            · rintro (h | ⟨h1, h2, h3, h4⟩)
              · exact Or.inl h
              · exact Or.inr ⟨h1, h2, h3, by simp [List.any_cons, h4]⟩
            · rintro (h | ⟨h1, h2, h3, h4⟩)
              · exact Or.inl h
              · rw [List.any_cons, Bool.or_eq_true] at h4
                rcases h4 with hr | hr
                · obtain ⟨ha, hb⟩ : r.neighbor_id = X ∧ r.link_code = SYM_LINK := by
                    simpa using hr
                  exact Or.inl (by rw [← ha, h1]; exact hmem)
                · exact Or.inr ⟨h1, h2, h3, hr⟩
          · rw [if_neg hmem] at hpairs
            have hmm : (two_hop_pair_mem (add_two_hop_neighbor st r.neighbor_id
                sender now).2.two_hop_table X via = true) ↔
                (two_hop_pair_mem st.two_hop_table X via = true ∨
                 (X = r.neighbor_id ∧ via = sender)) := by
              rw [two_hop_pair_mem_iff, two_hop_pair_mem_iff, hpairs]
              simp [two_hop_pairs, Prod.ext_iff]
            rw [hmm]
            constructor
            · rintro ((h | ⟨hx, hv⟩) | ⟨h1, h2, h3, h4⟩)
              · exact Or.inl h
              · refine Or.inr ⟨hv, ?_, ?_, ?_⟩
                · rw [hx]; exact hskip
                · rw [hx]
                  simpa using hone
                · simp [List.any_cons, hx, hsym]
              · exact Or.inr ⟨h1, h2, h3, by simp [List.any_cons, h4]⟩
            · rintro (h | ⟨h1, h2, h3, h4⟩)
              · exact Or.inl (Or.inl h)
              · rw [List.any_cons, Bool.or_eq_true] at h4
                rcases h4 with hr | hr
                · obtain ⟨ha, hb⟩ : r.neighbor_id = X ∧ r.link_code = SYM_LINK := by
                    simpa using hr
                  exact Or.inl (Or.inr ⟨ha.symm, h1⟩)
                · exact Or.inr ⟨h1, h2, h3, hr⟩
        · have hcnd : (!(st.neighbor_table.any
              (fun n => n.neighbor_id == r.neighbor_id)) &&
                r.link_code == SYM_LINK) = false := by
            simp [hsym]
          rw [if_neg (by simp [hcnd]), ih st X via hcap']
          constructor
          · rintro (h | ⟨h1, h2, h3, h4⟩)
            · exact Or.inl h
            · exact Or.inr ⟨h1, h2, h3, by simp [List.any_cons, h4]⟩
          · rintro (h | ⟨h1, h2, h3, h4⟩)
            · exact Or.inl h
            · refine Or.inr ⟨h1, h2, h3, ?_⟩
              rw [List.any_cons, Bool.or_eq_true] at h4
              rcases h4 with hr | hr
              · obtain ⟨ha, hb⟩ : r.neighbor_id = X ∧ r.link_code = SYM_LINK := by
                  simpa using hr
                exact absurd hb hsym
              · exact hr

/-- `add_two_hop_neighbor` preserves distinctness of the recorded pairs. -/
theorem add_two_hop_neighbor_pairs_nodup (st : olsr_state) (a b : Nat)
    (now : Int) :
    (two_hop_pairs st.two_hop_table).Nodup →
    (two_hop_pairs (add_two_hop_neighbor st a b now).2.two_hop_table).Nodup := by
  intro h
  rw [add_two_hop_neighbor_pairs]
  by_cases hmem : two_hop_pair_mem st.two_hop_table a b = true
  · rw [if_pos hmem]; exact h
  · rw [if_neg hmem]
    by_cases hlen : MAX_TWO_HOP_NEIGHBORS ≤ st.two_hop_table.length
    · rw [if_pos hlen]; exact h
    · rw [if_neg hlen]
      have hnotin : (a, b) ∉ two_hop_pairs st.two_hop_table := fun hin =>
        hmem ((two_hop_pair_mem_iff st.two_hop_table a b).mpr hin)
      simp [List.nodup_append, h, hnotin]

/-- The two-hop derivation loop preserves distinctness of the pairs. -/
theorem hello_two_hop_loop_pairs_nodup (sender : Nat) (now : Int) :
    ∀ (rs : List hello_neighbor) (st : olsr_state),
    (two_hop_pairs st.two_hop_table).Nodup →
    (two_hop_pairs (hello_two_hop_loop sender now rs st).two_hop_table).Nodup := by
  intro rs
  induction rs with
  | nil => intro st h; exact h
  | cons r rest ih =>
    intro st h
    unfold hello_two_hop_loop
    split
    · exact ih st h
    · split
      · exact ih _ (add_two_hop_neighbor_pairs_nodup st r.neighbor_id sender now h)
      · exact ih st h

/-- C7: during HELLO reception (below two-hop capacity) the pair
(X, sender) is recorded after processing iff it was recorded before, or
the sender is recorded as a symmetric neighbor after the neighbor-table
update, X is not this node's id, X is not in the one-hop neighbor table,
and the HELLO advertises X with link code `SYM_LINK`; pairs with another
via neighbor are untouched (the iff forces `via = sender`); distinctness
of the recorded pairs is preserved, and adding an existing pair only
refreshes `last_seen`: the pair projection and the entry count are
unchanged. -/
theorem process_hello_message_two_hop_spec (st : olsr_state)
    (msg : olsr_message) (hello : olsr_hello) (sender : Nat) (now : Int)
    (hty : msg.msg_type = MSG_HELLO)
    (hcap : st.two_hop_table.length + hello.neighbors.length ≤
      MAX_TWO_HOP_NEIGHBORS) :
    (hello_neighbor_phase st hello sender now).two_hop_table =
      st.two_hop_table ∧
    (∀ X via : Nat,
      two_hop_pair_mem
          (process_hello_message st msg hello sender now).two_hop_table X via
          = true ↔
        (two_hop_pair_mem st.two_hop_table X via = true ∨
         ((hello_neighbor_phase st hello sender now).neighbor_table.any
            (fun n => n.neighbor_id == sender && n.link_status == SYM_LINK)
            = true ∧
          via = sender ∧
          X ≠ (hello_neighbor_phase st hello sender now).node_id ∧
          (hello_neighbor_phase st hello sender now).neighbor_table.any
            (fun n => n.neighbor_id == X) = false ∧
          hello.neighbors.any
            (fun r => r.neighbor_id == X && r.link_code == SYM_LINK) = true))) ∧
    ((two_hop_pairs st.two_hop_table).Nodup →
      (two_hop_pairs
        (process_hello_message st msg hello sender now).two_hop_table).Nodup) ∧
    (∀ (s : olsr_state) (a b : Nat),
      two_hop_pair_mem s.two_hop_table a b = true →
      two_hop_pairs (add_two_hop_neighbor s a b now).2.two_hop_table =
        two_hop_pairs s.two_hop_table ∧
      (add_two_hop_neighbor s a b now).2.two_hop_table.length =
        s.two_hop_table.length) := by
  have h0 := hello_neighbor_phase_two_hop st hello sender now
  have hfin : (process_hello_message st msg hello sender now).two_hop_table =
      (if (hello_neighbor_phase st hello sender now).neighbor_table.any
          (fun n => n.neighbor_id == sender && n.link_status == SYM_LINK) then
        (hello_two_hop_loop sender now hello.neighbors
          (hello_neighbor_phase st hello sender now)).two_hop_table
       else (hello_neighbor_phase st hello sender now).two_hop_table) := by
    simp only [process_hello_message]
    rw [if_neg (by simp [hty])]
    rw [cleanup_expired_reservations_two_hop, update_mpr_selector_status_two_hop,
        calculate_mpr_set_state_two_hop]
    split
    · rfl
    · rfl
  refine ⟨h0, ?_, ?_, ?_⟩
  · intro X via
    rw [hfin]
    by_cases hsym : (hello_neighbor_phase st hello sender now).neighbor_table.any
        (fun n => n.neighbor_id == sender && n.link_status == SYM_LINK) = true
    · rw [if_pos hsym]
      have hc : (hello_neighbor_phase st hello sender
          now).two_hop_table.length + hello.neighbors.length ≤
          MAX_TWO_HOP_NEIGHBORS := by rw [h0]; exact hcap
      rw [hello_two_hop_loop_mem sender now hello.neighbors _ X via hc, h0]
      constructor
      · rintro (h | ⟨h1, h2, h3, h4⟩)
        · exact Or.inl h
        · exact Or.inr ⟨hsym, h1, h2, h3, h4⟩
      · rintro (h | ⟨_, h1, h2, h3, h4⟩)
        · exact Or.inl h
        · exact Or.inr ⟨h1, h2, h3, h4⟩
    · rw [if_neg hsym, h0]
      constructor
      · exact fun h => Or.inl h
      · rintro (h | ⟨h1, _⟩)
        · exact h
        · exact absurd h1 hsym
  · intro hnd
    rw [hfin]
    by_cases hsym : (hello_neighbor_phase st hello sender now).neighbor_table.any
        (fun n => n.neighbor_id == sender && n.link_status == SYM_LINK) = true
    · rw [if_pos hsym]
      apply hello_two_hop_loop_pairs_nodup
      rw [h0]; exact hnd
    · rw [if_neg hsym, h0]; exact hnd
  · intro s a b hmem
    have hp := add_two_hop_neighbor_pairs s a b now
    rw [if_pos hmem] at hp
    refine ⟨hp, ?_⟩
    have hl := congrArg List.length hp
    simpa [two_hop_pairs] using hl

/-- Witness for C7: an empty node hearing a HELLO from node 2 that lists
this node (1) and node 3 as symmetric records the two-hop pair (3, 2). -/
theorem process_hello_message_two_hop_spec_witness :
    (⟨MSG_HELLO, 0, 2, 1, 0, 0⟩ : olsr_message).msg_type = MSG_HELLO ∧
    (⟨1, 3, -1, [], [], [], [], [], [], [], [], 0, 0⟩ :
        olsr_state).two_hop_table.length +
      (⟨2, 3, -1, [⟨1, SYM_LINK⟩, ⟨3, SYM_LINK⟩], []⟩ :
        olsr_hello).neighbors.length ≤ MAX_TWO_HOP_NEIGHBORS ∧
    two_hop_pair_mem
      (process_hello_message
        ⟨1, 3, -1, [], [], [], [], [], [], [], [], 0, 0⟩
        ⟨MSG_HELLO, 0, 2, 1, 0, 0⟩
        ⟨2, 3, -1, [⟨1, SYM_LINK⟩, ⟨3, SYM_LINK⟩], []⟩
        2 0).two_hop_table 3 2 = true := by
  refine ⟨rfl, by decide, ?_⟩
  have h := process_hello_message_two_hop_spec
    ⟨1, 3, -1, [], [], [], [], [], [], [], [], 0, 0⟩
    ⟨MSG_HELLO, 0, 2, 1, 0, 0⟩
    ⟨2, 3, -1, [⟨1, SYM_LINK⟩, ⟨3, SYM_LINK⟩], []⟩ 2 0 rfl (by decide)
  exact (h.2.1 3 2).mpr
    (Or.inr ⟨by decide, rfl, by decide, by decide, by decide⟩)

set_option maxRecDepth 20000 in
/-- Counterexample to the unconditional C7 claim: with the two-hop table
already holding `MAX_TWOHOPNB` entries, every stated condition holds —
the sender (2) is recorded symmetric, 3 is neither this node nor a one-hop
neighbor, and the HELLO advertises 3 with `SYM_LINK` — yet the pair (3, 2)
is absent both before and after processing: the full table silently drops
the insertion. -/
theorem process_hello_message_two_hop_capacity_drop :
    (hello_neighbor_phase
        ⟨1, 3, -1, [], List.replicate MAX_TWO_HOP_NEIGHBORS ⟨5, 6, 0⟩,
         [], [], [], [], [], [], 0, 0⟩
        ⟨2, 3, -1, [⟨1, SYM_LINK⟩, ⟨3, SYM_LINK⟩], []⟩ 2 0).neighbor_table.any
      (fun n => n.neighbor_id == 2 && n.link_status == SYM_LINK) = true ∧
    (hello_neighbor_phase
        ⟨1, 3, -1, [], List.replicate MAX_TWO_HOP_NEIGHBORS ⟨5, 6, 0⟩,
         [], [], [], [], [], [], 0, 0⟩
        ⟨2, 3, -1, [⟨1, SYM_LINK⟩, ⟨3, SYM_LINK⟩], []⟩ 2 0).neighbor_table.any
      (fun n => n.neighbor_id == 3) = false ∧
    two_hop_pair_mem
      (List.replicate MAX_TWO_HOP_NEIGHBORS
        (⟨5, 6, 0⟩ : two_hop_neighbor)) 3 2 = false ∧
    two_hop_pair_mem
      (process_hello_message
        ⟨1, 3, -1, [], List.replicate MAX_TWO_HOP_NEIGHBORS ⟨5, 6, 0⟩,
         [], [], [], [], [], [], 0, 0⟩
        ⟨MSG_HELLO, 0, 2, 1, 0, 0⟩
        ⟨2, 3, -1, [⟨1, SYM_LINK⟩, ⟨3, SYM_LINK⟩], []⟩
        2 0).two_hop_table 3 2 = false := by decide
